import Mathlib

/-!
# Verification of the MATRIX backend core

Shallow embedding of the core components of the MATRIX backend
(`src/backend/connection_manager.py`, `src/backend/inbox_manager.py`,
`src/backend/account_manager.py`, `src/backend/api_server.py`) together with
proofs about them.

Conventions used throughout:

* Each model lives in its own namespace (`RateLimit`, `Sync`, `Pool`,
  `Orchestrator`) and embeds the slice of the shared SQLite database that the
  corresponding Python component reads and writes.
* All models are per-account where the Python keys rows by
  `account_phone`; the phone string is carried only where the code's own
  normalization behaviour matters.
* Wall-clock time is modelled as seconds since the epoch (`Nat`).
* Network (Telethon) calls are modelled by oracle parameters describing the
  outcome the transport produced; database writes are explicit state passing.
* Log statements, WebSocket emissions and `asyncio.sleep` delays are effect-free
  for the properties considered and are elided.
-/

namespace MatrixBackend

/-! ## Rate limiter (`DMRateLimiter` in `inbox_manager.py` +
`inbox_dm_history` helpers in `account_manager.py`) -/

namespace RateLimit

/-- One row of the `inbox_dm_history` table
(`account_manager.py`, `init_inbox_tables`): the send ledger.
`sentAt` is the `sent_at` column in seconds since the epoch;
`campaignId` is the nullable `campaign_id` column. -/
structure DmEntry where
  peerId : Int
  campaignId : Option String
  msgId : Option Nat
  sentAt : Nat
  deriving Repr, DecidableEq

/-- Seconds in a day, for SQLite's `date('now','start of day')`. -/
def secondsPerDay : Nat := 86400

/-- The epoch time of SQLite's `date('now','start of day')`:
midnight (UTC) of the current day. -/
def startOfDay (now : Nat) : Nat := now / secondsPerDay * secondsPerDay

/-- `inbox_check_dm_sent` (`account_manager.py`): with a campaign id the
query matches `(peer_id, campaign_id)`; without one it matches any row for
the peer. -/
def inboxCheckDmSent (ledger : List DmEntry) (peerId : Int)
    (campaignId : Option String) : Bool :=
  match campaignId with
  | some c => ledger.any fun e => e.peerId == peerId && e.campaignId == some c
  | none => ledger.any fun e => e.peerId == peerId

/-- `inbox_get_dm_count_today` (`account_manager.py`): counts ledger rows with
`sent_at >= date('now','start of day')`, i.e. rows stamped since midnight of
the current day. -/
def inboxGetDmCountToday (ledger : List DmEntry) (now : Nat) : Nat :=
  (ledger.filter fun e => startOfDay now ≤ e.sentAt).length

/-- `inbox_record_dm_sent` (`account_manager.py`): `INSERT OR IGNORE` against
`UNIQUE(account_phone, peer_id, campaign_id)`. SQLite treats NULLs in a
UNIQUE constraint as distinct, so a row with `campaign_id` NULL always
inserts; otherwise the `(peer, campaign)` pair is deduplicated. -/
def inboxRecordDmSent (ledger : List DmEntry) (peerId : Int)
    (msgId : Option Nat) (campaignId : Option String) (now : Nat) :
    Bool × List DmEntry :=
  match campaignId with
  | none => (true, ledger ++ [⟨peerId, none, msgId, now⟩])
  | some c =>
      if ledger.any fun e => e.peerId == peerId && e.campaignId == some c then
        (false, ledger)
      else
        (true, ledger ++ [⟨peerId, some c, msgId, now⟩])

/-- In-process state of one `DMRateLimiter` instance:
`_sent_to_ids` (a set, modelled as a list queried by membership) and
`_last_dm_time`. -/
structure LimiterState where
  sentToIds : List Int
  lastDmTime : Option Nat
  deriving Repr, DecidableEq

/-- `DMRateLimiter.DM_LIMIT_PER_PERIOD`. -/
def DM_LIMIT_PER_PERIOD : Nat := 40

/-- `DMRateLimiter.MIN_DELAY_BETWEEN_DMS` (seconds). -/
def MIN_DELAY_BETWEEN_DMS : Nat := 30

/-- The f-string `f"Daily limit reached ({self.DM_LIMIT_PER_PERIOD} DMs)"`. -/
def dailyLimitReason : String :=
  "Daily limit reached (" ++ toString DM_LIMIT_PER_PERIOD ++ " DMs)"

/-- `DMRateLimiter.can_send` (`inbox_manager.py`): four layers in order —
in-memory sent-set, database ledger (which also warms the in-memory set on a
hit), daily count versus the cap, and minimum spacing since the last recorded
send. Returns the `(can_send, reason)` pair together with the (possibly
warmed) in-process state. -/
def canSend (st : LimiterState) (ledger : List DmEntry) (now : Nat)
    (peerId : Int) (campaignId : Option String) :
    (Bool × String) × LimiterState :=
  if st.sentToIds.contains peerId then
    ((false, "Already sent (in-memory cache)"), st)
  else if inboxCheckDmSent ledger peerId campaignId then
    ((false, "Already sent (database)"),
      { st with sentToIds := peerId :: st.sentToIds })
  else if DM_LIMIT_PER_PERIOD ≤ inboxGetDmCountToday ledger now then
    ((false, dailyLimitReason), st)
  else
    match st.lastDmTime with
    | some t =>
        let elapsed := now - t
        if elapsed < MIN_DELAY_BETWEEN_DMS then
          ((false, "Wait " ++ toString (MIN_DELAY_BETWEEN_DMS - elapsed) ++
            "s between DMs"), st)
        else
          ((true, "OK"), st)
    | none => ((true, "OK"), st)

/-- `DMRateLimiter.record_sent` (`inbox_manager.py`): adds the peer to the
in-memory set, stamps `_last_dm_time`, and inserts the ledger row. -/
def recordSent (st : LimiterState) (ledger : List DmEntry) (now : Nat)
    (peerId : Int) (msgId : Option Nat) (campaignId : Option String) :
    LimiterState × List DmEntry :=
  ({ sentToIds := peerId :: st.sentToIds, lastDmTime := some now },
    (inboxRecordDmSent ledger peerId msgId campaignId now).2)

/-- Modelled from the spec's words (for comparison with
`inboxGetDmCountToday`): the number of ledger rows recorded in the trailing
24 hours before `now`. -/
def trailing24hCount (ledger : List DmEntry) (now : Nat) : Nat :=
  (ledger.filter fun e => now - secondsPerDay ≤ e.sentAt && e.sentAt ≤ now).length

/-- 40 sends recorded at 23:00 of day 0 (epoch second 82800), to distinct
peers, with no campaign. -/
def capLedgerYesterday : List DmEntry :=
  (List.range 40).map fun i => ⟨100 + (i : Int), none, none, 82800⟩

/-- 40 sends recorded at 01:00 of day 1 (epoch second 90000), to distinct
peers, with no campaign. -/
def capLedgerToday : List DmEntry :=
  (List.range 40).map fun i => ⟨100 + (i : Int), none, none, 90000⟩

end RateLimit

/-! ## Sync engine (`SyncEngine` in `inbox_manager.py` + conversation/message
helpers in `account_manager.py`) -/

namespace Sync

/-- A Telegram message as surfaced by Telethon: `dialog.message` in
`sync_dialogs` and the items returned by `client.get_messages` in
`backfill_conversation`. Only the fields the sync engine reads. -/
structure TgMessage where
  id : Nat
  text : String
  out : Bool
  senderId : Option Int
  date : Nat
  replyToMsgId : Option Nat
  deriving Repr, DecidableEq

/-- One entry of the `client.get_dialogs()` response. `isUser` covers both the
`dialog.is_user` test and the `isinstance(entity, User)` test of
`sync_dialogs`; peer profile fields are only copied into the conversation row
and are elided. -/
structure Dialog where
  isUser : Bool
  peerId : Int
  message : Option TgMessage
  deriving Repr, DecidableEq

/-- One row of `inbox_conversations` (`account_manager.py`,
`init_inbox_tables`), restricted to the fields the sync engine reads and
writes. -/
structure Conv where
  lastMsgId : Nat
  lastMsgDate : Nat
  lastMsgText : String
  lastMsgFromId : Int
  lastMsgIsOutgoing : Bool
  needsBackfill : Bool
  backfillFromMsgId : Option Nat
  deriving Repr, DecidableEq

/-- Column defaults of a freshly inserted `inbox_conversations` row
(`last_msg_id` defaults to 0, `needs_backfill` to FALSE). -/
def defaultConv : Conv := ⟨0, 0, "", 0, false, false, none⟩

/-- One row of `inbox_messages`: the `UNIQUE(account_phone, peer_id, msg_id)`
key fields plus the content the sync engine writes. -/
structure MsgRow where
  peerId : Int
  msgId : Nat
  fromId : Int
  isOutgoing : Bool
  text : String
  replyToMsgId : Option Nat
  syncedVia : String
  deriving Repr, DecidableEq

/-- The database slice for one account. `connState` models the
`inbox_connection_state` row as written at the end of `sync_dialogs`:
`(is_connected, dialogs_count)`, timestamps elided. -/
structure Db where
  convs : List (Int × Conv)
  msgs : List MsgRow
  connState : Option (Bool × Nat)
  deriving Repr, DecidableEq

/-- `SELECT * FROM inbox_conversations WHERE peer_id = ?` for this account. -/
def convLookup (convs : List (Int × Conv)) (peer : Int) : Option Conv :=
  (convs.find? fun e => e.1 == peer).map (·.2)

/-- `inbox_get_or_create_conversation` (`account_manager.py`): return the
existing row, or insert one with column defaults. (The optional peer-profile
refresh touches only fields outside this model.) -/
def inboxGetOrCreateConversation (db : Db) (peer : Int) : Conv × Db :=
  match convLookup db.convs peer with
  | some c => (c, db)
  | none => (defaultConv, { db with convs := db.convs ++ [(peer, defaultConv)] })

/-- `inbox_update_conversation` (`account_manager.py`): an UPDATE keyed on
`(account_phone, peer_id)` — a no-op when the row is absent. `f` is the SET
clause built from the caller's keyword arguments. -/
def inboxUpdateConversation (db : Db) (peer : Int) (f : Conv → Conv) : Db :=
  { db with convs := db.convs.map fun e => if e.1 == peer then (e.1, f e.2) else e }

/-- `inbox_insert_message` (`account_manager.py`): `INSERT OR IGNORE` against
`UNIQUE(account_phone, peer_id, msg_id)`; returns whether a row was inserted. -/
def inboxInsertMessage (db : Db) (row : MsgRow) : Bool × Db :=
  if db.msgs.any fun r => r.peerId == row.peerId && r.msgId == row.msgId then
    (false, db)
  else (true, { db with msgs := db.msgs ++ [row] })

/-- Python's `msg.sender_id or peer_id` (both `None` and `0` are falsy). -/
def senderOrPeer (senderId : Option Int) (peer : Int) : Int :=
  match senderId with
  | some s => if s = 0 then peer else s
  | none => peer

/-- `SyncEngine._insert_message_from_dialog`: insert the dialog snapshot
message with `synced_via='dialog'`. -/
def insertMessageFromDialog (db : Db) (peer : Int) (m : TgMessage) (myId : Int) : Db :=
  (inboxInsertMessage db
    ⟨peer, m.id, if m.out then myId else senderOrPeer m.senderId peer, m.out,
      m.text, m.replyToMsgId, "dialog"⟩).2

/-- The SET clause of `_update_conversation_last_msg` as a row function
(text truncated to 100 characters). -/
def setLastMsg (peer : Int) (m : TgMessage) (myId : Int) (c : Conv) : Conv :=
  { c with lastMsgId := m.id, lastMsgDate := m.date,
           lastMsgText := m.text.take 100,
           lastMsgFromId := if m.out then myId else senderOrPeer m.senderId peer,
           lastMsgIsOutgoing := m.out }

/-- `SyncEngine._update_conversation_last_msg`: refresh the last-message
display fields. -/
def updateConversationLastMsg (db : Db) (peer : Int) (m : TgMessage) (myId : Int) : Db :=
  inboxUpdateConversation db peer (setLastMsg peer m myId)

/-- The `SyncResult` dataclass of `inbox_manager.py`. -/
structure SyncResult where
  dialogsFetched : Nat := 0
  synced : Nat := 0
  skipped : Nat := 0
  gapsDetected : Nat := 0
  deletionsDetected : Nat := 0
  errors : List String := []
  deriving Repr, DecidableEq

/-- Outcome of one transport (Telethon) call: a normal result, a
`FloodWaitError` carrying the wait in seconds, or any other exception with
its message. -/
inductive Fetch (α : Type) where
  | ok (value : α)
  | floodWait (seconds : Nat)
  | failed (msg : String)
  deriving Repr, DecidableEq

/-- The gap-detection body of `sync_dialogs` for one 1:1 dialog entry whose
database reads succeed: `gap = dialog_last_msg_id - db_last_msg_id` decides
between skip (with a cold-start text refresh), inline insert, backfill
marking, and deletion counting. -/
def syncDialogStep (db : Db) (r : SyncResult) (myId : Int) (peer : Int)
    (m : TgMessage) : SyncResult × Db :=
  let looked := inboxGetOrCreateConversation db peer
  let conv := looked.1
  let db := looked.2
  let dbLastMsgId := conv.lastMsgId
  let gap : Int := (m.id : Int) - (dbLastMsgId : Int)
  if gap = 0 then
    let db := if conv.lastMsgText == "" && m.text != "" then
        updateConversationLastMsg db peer m myId else db
    ({ r with skipped := r.skipped + 1 }, db)
  else if gap = 1 then
    let db := insertMessageFromDialog db peer m myId
    let db := updateConversationLastMsg db peer m myId
    ({ r with synced := r.synced + 1 }, db)
  else if 2 ≤ gap then
    let db := updateConversationLastMsg db peer m myId
    let db := inboxUpdateConversation db peer fun c =>
      { c with needsBackfill := true, backfillFromMsgId := some dbLastMsgId }
    ({ r with gapsDetected := r.gapsDetected + 1 }, db)
  else
    ({ r with deletionsDetected := r.deletionsDetected + 1 }, db)

/-- The `for dialog in dialogs` loop of `sync_dialogs`, together with the
method-level `except` handler that wraps it. `dbFail peer = some e` models a
database failure inside `inbox_get_or_create_conversation` for that peer:
the helper returns `None`, the following `conv.get` raises, and the
exception is caught by the handler, which appends `e` to the error list and
returns — aborting the rest of the loop. The Boolean marks that abort (the
post-loop connection-state write is skipped). Per-dialog processing performs
no transport call. -/
def syncDialogsLoop (dbFail : Int → Option String) (myId : Int) :
    List Dialog → Db → SyncResult → SyncResult × Db × Bool
  | [], db, r => (r, db, false)
  | d :: rest, db, r =>
    if !d.isUser then syncDialogsLoop dbFail myId rest db r
    else
      match d.message with
      | none => syncDialogsLoop dbFail myId rest db r
      | some m =>
        match dbFail d.peerId with
        | some e => ({ r with errors := r.errors ++ [e] }, db, true)
        | none =>
          let step := syncDialogStep db r myId d.peerId m
          syncDialogsLoop dbFail myId rest step.2 step.1

/-- Result of a `sync_dialogs` run: the `SyncResult`, the database, and the
number of transport calls performed. -/
structure SyncOutcome where
  result : SyncResult
  db : Db
  transportCalls : Nat
  deriving Repr, DecidableEq

/-- `SyncEngine.sync_dialogs`: a connectivity check, a single `get_dialogs`
transport call (the `fetch` oracle), the gap-detection loop, and the final
connection-state update. A `FloodWaitError` appends a rate-limit error and
returns the partial result; any other exception appends its message and
returns the partial result (the account identifier inside the
not-connected message is elided). -/
def syncDialogs (db : Db) (connected : Bool) (myId : Int)
    (fetch : Fetch (List Dialog)) (dbFail : Int → Option String) : SyncOutcome :=
  if !connected then
    ⟨{ errors := ["Account not connected"] }, db, 0⟩
  else
    match fetch with
    | .floodWait s =>
        ⟨{ errors := ["Rate limited, wait " ++ toString s ++ "s"] }, db, 1⟩
    | .failed msg => ⟨{ errors := [msg] }, db, 1⟩
    | .ok dialogs =>
        let loop := syncDialogsLoop dbFail myId dialogs db
          { dialogsFetched := dialogs.length }
        if loop.2.2 then ⟨loop.1, loop.2.1, 1⟩
        else ⟨loop.1, { loop.2.1 with
          connState := some (true, loop.1.dialogsFetched) }, 1⟩

/-- The insert loop of `backfill_conversation`: skip messages with a falsy
id, track the maximum id seen, insert idempotently, count fresh inserts.
Arguments: messages, inserted so far, latest id so far, database. -/
def backfillLoop (peer : Int) (myId : Int) :
    List TgMessage → Nat → Nat → Db → Nat × Nat × Db
  | [], inserted, latest, db => (inserted, latest, db)
  | m :: rest, inserted, latest, db =>
    if m.id = 0 then backfillLoop peer myId rest inserted latest db
    else
      let latest := if latest < m.id then m.id else latest
      let ins := inboxInsertMessage db
        ⟨peer, m.id, if m.out then myId else senderOrPeer m.senderId peer, m.out,
          m.text, m.replyToMsgId, "backfill"⟩
      backfillLoop peer myId rest (inserted + if ins.1 then 1 else 0) latest ins.2

/-- Result of a backfill run: messages inserted, the database, and the number
of transport calls performed. -/
structure BackfillOutcome where
  backfilled : Nat
  db : Db
  transportCalls : Nat
  deriving Repr, DecidableEq

/-- `SyncEngine.backfill_conversation`: one `get_messages(peer, min_id=fromMsgId,
limit=...)` transport call (the `fetch` oracle), the insert loop, then one
conversation update clearing `needs_backfill` and setting `last_msg_id` to
the maximum id seen — which starts at `fromMsgId`. A flood-wait or any other
fetch error returns 0 with the database untouched. -/
def backfillConversation (db : Db) (connected : Bool) (myId : Int) (peer : Int)
    (fromMsgId : Nat) (fetch : Fetch (List TgMessage)) : BackfillOutcome :=
  if !connected then ⟨0, db, 0⟩
  else
    match fetch with
    | .floodWait _ => ⟨0, db, 1⟩
    | .failed _ => ⟨0, db, 1⟩
    | .ok messages =>
        let loop := backfillLoop peer myId messages 0 fromMsgId db
        let db := inboxUpdateConversation loop.2.2 peer fun c =>
          { c with needsBackfill := false, backfillFromMsgId := none,
                    lastMsgId := loop.2.1 }
        ⟨loop.1, db, 1⟩

/-- `inbox_get_conversations_needing_backfill` (`account_manager.py`): all
rows with `needs_backfill = TRUE` for the account. -/
def conversationsNeedingBackfill (db : Db) : List (Int × Conv) :=
  db.convs.filter fun e => e.2.needsBackfill

/-- `SyncEngine.process_pending_backfills`: snapshot the pending set, then
backfill each pending conversation in turn from its recorded
`backfill_from_msg_id` (`NULL` read as 0); one conversation's failure does
not stop the iteration, and `backfill_conversation` catches everything it
raises internally. -/
def processPendingBackfills (db : Db) (connected : Bool) (myId : Int)
    (fetchFor : Int → Fetch (List TgMessage)) : BackfillOutcome :=
  (conversationsNeedingBackfill db).foldl
    (fun acc e =>
      let b := backfillConversation acc.db connected myId e.1
        (e.2.backfillFromMsgId.getD 0) (fetchFor e.1)
      ⟨acc.backfilled + b.backfilled, b.db, acc.transportCalls + b.transportCalls⟩)
    ⟨0, db, 0⟩

/-- A conversation for peer 7 whose local cursor sits at message 100. -/
def convAt100 : Conv := { defaultConv with lastMsgId := 100, lastMsgText := "m100" }

/-- Local mirror before the end-to-end scenario: peer 7 at cursor 100, with
message 100 stored. -/
def dbAt100 : Db := ⟨[(7, convAt100)], [⟨7, 100, 7, false, "m100", none, "event"⟩], none⟩

/-- An incoming message with id `id` from peer 7. -/
def tgMsg (id : Nat) : TgMessage := ⟨id, "m" ++ toString id, false, some 7, 1000 + id, none⟩

/-- The dialog summary for peer 7 whose remote cursor sits at message 103. -/
def dialogAt103 : Dialog := ⟨true, 7, some (tgMsg 103)⟩

/-- `sync_dialogs` run on the cursor-100/remote-103 scenario. -/
def syncRun100to103 : SyncOutcome :=
  syncDialogs dbAt100 true 42 (.ok [dialogAt103]) (fun _ => none)

/-- `process_pending_backfills` after the sync, with the transport returning
messages 101–103 (newest first, as Telethon does). -/
def backfillRun100to103 : BackfillOutcome :=
  processPendingBackfills syncRun100to103.db true 42
    (fun _ => .ok [tgMsg 103, tgMsg 102, tgMsg 101])

/-- `process_pending_backfills` after the sync, with the transport returning
no messages above the cursor (remote messages deleted in between). -/
def backfillRunEmptyFetch : BackfillOutcome :=
  processPendingBackfills syncRun100to103.db true 42 (fun _ => .ok [])

/-- A dialog for peer 1 (its conversation read will fail). -/
def dialogPeerOne : Dialog := ⟨true, 1, some (tgMsg 5)⟩

/-- A dialog for peer 2 carrying message 1 — a fresh conversation with gap 1,
which the loop would sync inline if it reached it. -/
def dialogPeerTwo : Dialog := ⟨true, 2, some ⟨1, "hello", false, some 2, 1001, none⟩⟩

/-- Database-failure oracle: reading peer 1's conversation raises. -/
def dbFailPeerOne : Int → Option String :=
  fun p => if p == 1 then some "construct-conversation failed" else none

/-- Sync run where processing peer 1 raises a non-flood error while peer 2
is still unprocessed. -/
def syncRunPeerError : SyncOutcome :=
  syncDialogs ⟨[], [], none⟩ true 0 (.ok [dialogPeerOne, dialogPeerTwo]) dbFailPeerOne

end Sync

/-! ## Session pool (`GlobalConnectionManager` in `connection_manager.py` +
`InboxManager.connect_account` in `inbox_manager.py`) -/

namespace Pool

/-- `GlobalConnectionManager._normalize_phone`: `phone.lstrip('+').strip()` —
strip leading `+` characters, then surrounding whitespace (Python's
whitespace class approximated by `Char.isWhitespace`). -/
def connNormalizePhone (phone : String) : String :=
  String.mk ((((phone.toList.dropWhile fun c => c == '+').dropWhile
    Char.isWhitespace).reverse.dropWhile Char.isWhitespace).reverse)

/-- `normalize_phone` in `account_manager.py` (used by the database helpers):
keep decimal digits only. -/
def amNormalizePhone (phone : String) : String :=
  String.mk (phone.toList.filter Char.isDigit)

/-- Python ordered-dict assignment `d[k] = v`: replace in place, else append. -/
def assocStore {α : Type} (l : List (String × α)) (k : String) (v : α) :
    List (String × α) :=
  if l.any fun e => e.1 == k then
    l.map fun e => if e.1 == k then (k, v) else e
  else l ++ [(k, v)]

/-- Python ordered-dict lookup `d.get(k)`. -/
def assocLookup {α : Type} (l : List (String × α)) (k : String) : Option α :=
  (l.find? fun e => e.1 == k).map fun e => e.2

/-- A pool entry: the slice of `ConnectionInfo` the claims observe — the
`TelegramClient` object (a numeric handle) and the `in_use_by` tag.
Credentials, timestamps and identity fields ride along in the Python
dataclass and are elided. -/
structure ClientEntry where
  cid : Nat
  inUseBy : Option String
  deriving Repr, DecidableEq

/-- State of the pool and the world it can reach: `clients` is
`self._clients` (an ordered dict keyed by normalized phone), `connectedIds`
the handles whose `client.is_connected()` is true, `opLocks` the held
per-account operation mutexes (`self._operation_locks`), `connStates` the
`state` column of the `inbox_connection_state` rows, and `nextId` a supply
of fresh client handles. -/
structure PoolState where
  clients : List (String × ClientEntry)
  connectedIds : List Nat
  opLocks : List String
  connStates : List (String × String)
  nextId : Nat
  deriving Repr, DecidableEq

/-- What the transport does when `get_client` builds and connects a new
`TelegramClient`: success (connected, authorized, `get_me` answered), an
authorization check that comes back false, an `AuthKeyUnregisteredError`, a
`UserDeactivatedBanError`, or any other exception. -/
inductive ConnectOutcome where
  | success
  | notAuthorized
  | authKeyUnregistered
  | banned
  | otherFailure (msg : String)
  deriving Repr, DecidableEq

/-- The connect section of `get_client` (the body under the per-account
connect lock): create a client, connect, verify authorization, store the
`ConnectionInfo` under the normalized phone. On `notAuthorized` the fresh
client is disconnected and `None` returned; the three `except` arms log and
return `None`. No path writes any account or connection state. -/
def getClientConnect (s : PoolState) (p : String) (outcome : ConnectOutcome) :
    Option Nat × PoolState :=
  match outcome with
  | .success =>
      (some s.nextId,
        { s with
          clients := assocStore s.clients p ⟨s.nextId, none⟩
          connectedIds := s.nextId :: s.connectedIds
          nextId := s.nextId + 1 })
  | .notAuthorized => (none, { s with nextId := s.nextId + 1 })
  | .authKeyUnregistered => (none, { s with nextId := s.nextId + 1 })
  | .banned => (none, { s with nextId := s.nextId + 1 })
  | .otherFailure _ => (none, { s with nextId := s.nextId + 1 })

/-- `GlobalConnectionManager.get_client`: if the stored client reports
connected, return it without any transport call; otherwise — with
credentials either passed by the caller (`haveCreds`) or recovered from the
stored entry — run the connect section and store the result by replacing
the entry for that phone. -/
def getClient (s : PoolState) (phone : String) (haveCreds : Bool)
    (outcome : ConnectOutcome) : Option Nat × PoolState :=
  let p := connNormalizePhone phone
  match assocLookup s.clients p with
  | some entry =>
      if s.connectedIds.contains entry.cid then (some entry.cid, s)
      else getClientConnect s p outcome
  | none =>
      if haveCreds then getClientConnect s p outcome
      else (none, s)

/-- `GlobalConnectionManager.disconnect_account`: disconnect the stored
client if it is connected and delete the pool entry. -/
def disconnectAccount (s : PoolState) (phone : String) : PoolState :=
  let p := connNormalizePhone phone
  match assocLookup s.clients p with
  | none => s
  | some entry =>
      { s with
        clients := s.clients.filter fun e => !(e.1 == p)
        connectedIds := s.connectedIds.filter fun c => !(c == entry.cid) }

/-- A transport-side connection loss: `client.is_connected()` turns false
without any pool call. -/
def dropConnection (s : PoolState) (cid : Nat) : PoolState :=
  { s with connectedIds := s.connectedIds.filter fun c => !(c == cid) }

/-- The pool operations whose interleavings claim C1 quantifies over. -/
inductive PoolOp where
  | acquire (phone : String) (haveCreds : Bool) (outcome : ConnectOutcome)
  | disconnect (phone : String)
  | drop (cid : Nat)
  deriving Repr, DecidableEq

/-- One pool operation. -/
def poolStep (s : PoolState) (op : PoolOp) : PoolState :=
  match op with
  | .acquire phone haveCreds outcome => (getClient s phone haveCreds outcome).2
  | .disconnect phone => disconnectAccount s phone
  | .drop cid => dropConnection s cid

/-- A sequence of pool operations. -/
def poolRun (s : PoolState) : List PoolOp → PoolState
  | [] => s
  | op :: ops => poolRun (poolStep s op) ops

/-- A fresh pool over the given persisted connection-state rows. -/
def initialPool (connStates : List (String × String)) : PoolState :=
  ⟨[], [], [], connStates, 0⟩

/-- The connected clients the pool holds for normalized phone `p`. -/
def livePoolClients (s : PoolState) (p : String) : List Nat :=
  (s.clients.filter fun e => e.1 == p && s.connectedIds.contains e.2.cid).map
    fun e => e.2.cid

/-- `self._clients[p].in_use_by = tag` (a no-op when the entry is gone). -/
def setInUse (s : PoolState) (p : String) (tag : Option String) : PoolState :=
  { s with clients := s.clients.map fun e =>
      if e.1 == p then (e.1, { e.2 with inUseBy := tag }) else e }

/-- `GlobalConnectionManager.with_client`: take the per-account operation
lock, lease a client via `get_client`, raise `RuntimeError` when that
returns `None` (the lock is released as the exception propagates), otherwise
tag the entry `in_use_by`, run the caller's block (`body`), untag in the
`finally`, and release the lock. -/
def withClient (s : PoolState) (phone : String) (haveCreds : Bool)
    (outcome : ConnectOutcome) (opName : Option String)
    (body : Nat → PoolState → PoolState) : Except String Unit × PoolState :=
  let p := connNormalizePhone phone
  let s1 := { s with opLocks := p :: s.opLocks }
  let acq := getClient s1 phone haveCreds outcome
  match acq.1 with
  | none =>
      (.error ("Failed to get client for " ++ p),
        { acq.2 with opLocks := acq.2.opLocks.erase p })
  | some cid =>
      let s2 := if (assocLookup acq.2.clients p).isSome then
          setInUse acq.2 p opName else acq.2
      let s3 := body cid s2
      let s4 := if (assocLookup s3.clients p).isSome then
          setInUse s3 p none else s3
      (.ok (), { s4 with opLocks := s4.opLocks.erase p })

/-- The `state`-column write of `inbox_update_connection_state`
(an upsert keyed on the digits-normalized phone; other columns elided). -/
def inboxUpdateConnState (cs : List (String × String)) (phone state : String) :
    List (String × String) :=
  assocStore cs (amNormalizePhone phone) state

/-- `InboxManager.connect_account` (`inbox_manager.py`): look the account
row up, lease a client from the pool, and persist a connection state —
`connected` on success, `auth_required` on every kind of failure. (The
initial dialog sync triggered on success belongs to the `Sync` model and is
elided here.) -/
def connectAccount (s : PoolState) (phone : String) (acctExists haveCreds : Bool)
    (outcome : ConnectOutcome) : Bool × PoolState :=
  if !acctExists then (false, s)
  else
    let acq := getClient s phone haveCreds outcome
    match acq.1 with
    | some _ =>
        (true, { acq.2 with
          connStates := inboxUpdateConnState acq.2.connStates phone "connected" })
    | none =>
        (false, { acq.2 with
          connStates := inboxUpdateConnState acq.2.connStates phone "auth_required" })

/-- A pool with no clients whose only persisted state row marks account
15551234 as `connected`. -/
def poolBanScenario : PoolState := ⟨[], [], [], [("15551234", "connected")], 0⟩

end Pool

/-! ## Orchestrator (`AccountLockManager`, operation tracking and
`_execute_multi_account_operation` in `api_server.py`) -/

namespace Orchestrator

/-- One per-account entry of `active_operations[op_id]['accounts']`
(`create_operation` in `api_server.py`); the structured `stats` dict is
elided, log entries are reduced to their messages. -/
structure AcctProgress where
  status : String
  progress : Nat
  total : Nat
  message : String
  error : Option String
  logs : List String
  deriving Repr, DecidableEq

/-- The sub-state `create_operation` gives every account. -/
def pendingAcct : AcctProgress := ⟨"pending", 0, 0, "", none, []⟩

/-- Result of `run_for_account`'s operation body: the Python returns either
a result dict or `{'error': msg}`. -/
inductive RunResult where
  | ok
  | failed (msg : String)
  deriving Repr, DecidableEq

/-- One in-memory operation record: its `status`, the per-account progress
map, and the result map the runner hands to `complete_operation`. `none`
records a `run_for_account` that returned `None`. -/
structure OpState where
  status : String
  accounts : List (String × AcctProgress)
  results : List (String × Option RunResult)
  deriving Repr, DecidableEq

/-- `create_operation`: status `pending`, one pending sub-state per account
(id, params, timestamps and the database mirror elided; phone numbers arrive
normalized). -/
def createOperation (phones : List String) : OpState :=
  ⟨"pending", phones.map fun p => (p, pendingAcct), []⟩

/-- `update_account_progress` (the immediate in-memory path; the batched
database write mirrors it and is elided). -/
def updateAccountProgress (op : OpState) (phone : String) (progress total : Nat)
    (status message : String) (error : Option String) : OpState :=
  { op with accounts := op.accounts.map fun e =>
      if e.1 == phone then
        (e.1, { e.2 with
          progress := progress
          total := total
          status := status
          message := message
          error := error })
      else e }

/-- `add_account_log` (in-memory path; timestamp and level elided). -/
def addAccountLog (op : OpState) (phone message : String) : OpState :=
  { op with accounts := op.accounts.map fun e =>
      if e.1 == phone then (e.1, { e.2 with logs := e.2.logs ++ [message] })
      else e }

/-- What happens to one account inside `run_for_account`: the lock
acquisition times out after its bounded wait, the account row is missing,
`init_client` fails, the operation body runs to completion, or it raises
with a message. -/
inductive AcctOutcome where
  | lockTimeout
  | accountNotFound
  | connectFailed
  | runOk
  | runError (msg : String)
  deriving Repr, DecidableEq

/-- Runner state: the operation record plus the held per-account locks of
`AccountLockManager`. -/
structure RunnerState where
  op : OpState
  locks : List String
  deriving Repr, DecidableEq

/-- The common prefix of every `run_for_account` path past lock acquisition:
the lock is held, the start is logged, the sub-state turns `running`. -/
def acquireAndStart (st : RunnerState) (phone : String) : RunnerState :=
  ⟨updateAccountProgress (addAccountLog st.op phone "Starting operation")
      phone 0 100 "running" "Initializing..." none,
    phone :: st.locks⟩

/-- `run_for_account` inside `_execute_multi_account_operation`: a lock
timeout makes only that account's sub-state a terminal `error` with
"Lock timeout" and returns `None` without holding the lock; otherwise the
runner acquires the lock, honours a cancelled job, connects and runs the
operation body; every path past acquisition releases the lock in its
`finally`, and every failure is caught and recorded as the account's
terminal sub-state rather than raised. -/
def runForAccount (st : RunnerState) (phone : String) (outcome : AcctOutcome) :
    Option RunResult × RunnerState :=
  match outcome with
  | .lockTimeout =>
      let op := updateAccountProgress
        (addAccountLog st.op phone "Failed to acquire lock (timeout)")
        phone 0 0 "error" "" (some "Lock timeout")
      (none, { st with op := op })
  | .accountNotFound =>
      let st1 := acquireAndStart st phone
      if st1.op.status == "cancelled" then
        (none, { st1 with locks := st1.locks.erase phone })
      else
        let op := updateAccountProgress
          (addAccountLog st1.op phone "Account not found")
          phone 0 0 "error" "" (some "Account not found")
        (none, ⟨op, st1.locks.erase phone⟩)
  | .connectFailed =>
      let st1 := acquireAndStart st phone
      if st1.op.status == "cancelled" then
        (none, { st1 with locks := st1.locks.erase phone })
      else
        let op := addAccountLog st1.op phone "Connecting to Telegram..."
        let op := addAccountLog op phone "Error: Failed to connect to Telegram"
        let op := updateAccountProgress op phone 0 0 "error" ""
          (some "Failed to connect to Telegram")
        (some (.failed "Failed to connect to Telegram"),
          ⟨op, st1.locks.erase phone⟩)
  | .runOk =>
      let st1 := acquireAndStart st phone
      if st1.op.status == "cancelled" then
        (none, { st1 with locks := st1.locks.erase phone })
      else
        let op := addAccountLog st1.op phone "Connecting to Telegram..."
        let op := updateAccountProgress op phone 10 100 "running" "Connected" none
        let op := updateAccountProgress op phone 100 100 "completed" "Done" none
        let op := addAccountLog op phone "Operation completed successfully"
        (some .ok, ⟨op, st1.locks.erase phone⟩)
  | .runError msg =>
      let st1 := acquireAndStart st phone
      if st1.op.status == "cancelled" then
        (none, { st1 with locks := st1.locks.erase phone })
      else
        let op := addAccountLog st1.op phone "Connecting to Telegram..."
        let op := updateAccountProgress op phone 10 100 "running" "Connected" none
        let op := addAccountLog op phone ("Error: " ++ msg)
        let op := updateAccountProgress op phone 0 0 "error" "" (some msg)
        (some (.failed msg), ⟨op, st1.locks.erase phone⟩)

/-- The strictly sequential `for phone in phones` loop of
`_execute_multi_account_operation`: one account completes before the next
starts, each account's result is recorded, and no failure stops the loop
(`run_for_account` catches everything it raises). -/
def runAccountsLoop :
    RunnerState → List (String × Option RunResult) →
      List (String × AcctOutcome) →
      RunnerState × List (String × Option RunResult)
  | st, results, [] => (st, results)
  | st, results, (phone, outcome) :: rest =>
      let st1 : RunnerState :=
        ⟨addAccountLog st.op phone "Starting operation for account...", st.locks⟩
      let r := runForAccount st1 phone outcome
      runAccountsLoop r.2 (results ++ [(phone, r.1)]) rest

/-- `complete_operation`: flush the batched write queues (elided), set the
job status — `completed` when called without an error argument, as the
runner does — and store the result map. -/
def completeOperation (op : OpState)
    (results : List (String × Option RunResult))
    (error : Option String) : OpState :=
  { op with status := if error.isSome then "error" else "completed",
            results := results }

/-- `_execute_multi_account_operation`: run every account sequentially, then
complete the operation with no job-level error. -/
def executeMultiAccountOperation (op : OpState) (locks : List String)
    (accounts : List (String × AcctOutcome)) : OpState :=
  completeOperation (runAccountsLoop ⟨op, locks⟩ [] accounts).1.op
    (runAccountsLoop ⟨op, locks⟩ [] accounts).2 none

/-- Per-account sub-state lookup (`op['accounts'][phone]`). -/
def acctLookup (l : List (String × AcctProgress)) (p : String) :
    Option AcctProgress :=
  (l.find? fun e => e.1 == p).map fun e => e.2

end Orchestrator

/-! ## Theorems -/

namespace RateLimit

/-- **C3, counterexample.** The daily-cap layer of `can_send` does not count
the trailing 24 hours: with 40 sends recorded at 23:00 of the previous day
(all inside the trailing 24-hour window at 01:00 the next day, so the
spec-side count equals the cap), `can_send` still answers `(true, "OK")`,
because `inbox_get_dm_count_today` counts only rows stamped since midnight. -/
theorem canSend_cap_not_trailing24h_counterexample :
    trailing24hCount capLedgerYesterday 90000 = DM_LIMIT_PER_PERIOD ∧
    (canSend ⟨[], none⟩ capLedgerYesterday 90000 7 none).1 = (true, "OK") := by
  decide

/-- **C3, amended.** `can_send`'s daily-cap check counts the sends recorded
since the start of the current day (midnight) for the account, and when that
count has reached the per-account cap (40) — the duplicate layers not having
fired — the call returns false with the cap reason. -/
theorem canSend_daily_cap_since_midnight (st : LimiterState)
    (ledger : List DmEntry) (now : Nat) (peerId : Int)
    (campaignId : Option String)
    (h1 : st.sentToIds.contains peerId = false)
    (h2 : inboxCheckDmSent ledger peerId campaignId = false)
    (h3 : DM_LIMIT_PER_PERIOD ≤ inboxGetDmCountToday ledger now) :
    canSend st ledger now peerId campaignId = ((false, dailyLimitReason), st) := by
  have h1m : peerId ∉ st.sentToIds := by simpa using h1
  unfold canSend
  simp [h1m, h2, h3]

/-- Witness for `canSend_daily_cap_since_midnight`: 40 sends recorded since
midnight make the next `can_send` for a fresh peer fail with the cap reason. -/
theorem canSend_daily_cap_since_midnight_witness :
    canSend ⟨[], none⟩ capLedgerToday 90000 7 none =
      ((false, dailyLimitReason), ⟨[], none⟩) :=
  canSend_daily_cap_since_midnight ⟨[], none⟩ capLedgerToday 90000 7 none
    (by decide) (by decide) (by decide)

/-- **C6.** `can_send` evaluates its layers in order — in-process sent-set,
persisted duplicate ledger (a hit also warms the in-process set), daily cap,
minimum spacing — the first failing layer determines the reason, and after
`record_sent(peer, campaign)` a subsequent `can_send(peer, campaign)` returns
false with a duplicate reason. -/
theorem canSend_layer_order_and_duplicate (st : LimiterState)
    (ledger : List DmEntry) (now now2 : Nat) (peerId : Int) (msgId : Option Nat)
    (campaignId : Option String) :
    (st.sentToIds.contains peerId = true →
      canSend st ledger now peerId campaignId =
        ((false, "Already sent (in-memory cache)"), st)) ∧
    (st.sentToIds.contains peerId = false →
      inboxCheckDmSent ledger peerId campaignId = true →
      canSend st ledger now peerId campaignId =
        ((false, "Already sent (database)"),
          { st with sentToIds := peerId :: st.sentToIds }) ∧
      ({ st with sentToIds := peerId :: st.sentToIds } :
          LimiterState).sentToIds.contains peerId = true) ∧
    (st.sentToIds.contains peerId = false →
      inboxCheckDmSent ledger peerId campaignId = false →
      DM_LIMIT_PER_PERIOD ≤ inboxGetDmCountToday ledger now →
      canSend st ledger now peerId campaignId = ((false, dailyLimitReason), st)) ∧
    (∀ t, st.sentToIds.contains peerId = false →
      inboxCheckDmSent ledger peerId campaignId = false →
      inboxGetDmCountToday ledger now < DM_LIMIT_PER_PERIOD →
      st.lastDmTime = some t →
      now - t < MIN_DELAY_BETWEEN_DMS →
      canSend st ledger now peerId campaignId =
        ((false, "Wait " ++ toString (MIN_DELAY_BETWEEN_DMS - (now - t)) ++
          "s between DMs"), st)) ∧
    ((canSend (recordSent st ledger now peerId msgId campaignId).1
        (recordSent st ledger now peerId msgId campaignId).2
        now2 peerId campaignId).1 = (false, "Already sent (in-memory cache)")) := by
  refine ⟨?_, ?_, ?_, ?_, ?_⟩
  · intro h1
    have h1m : peerId ∈ st.sentToIds := by simpa using h1
    unfold canSend
    simp [h1m]
  · intro h1 h2
    have h1m : peerId ∉ st.sentToIds := by simpa using h1
    unfold canSend
    simp [h1m, h2]
  · intro h1 h2 h3
    have h1m : peerId ∉ st.sentToIds := by simpa using h1
    unfold canSend
    simp [h1m, h2, h3]
  · intro t h1 h2 h3 h4 h5
    have h1m : peerId ∉ st.sentToIds := by simpa using h1
    unfold canSend
    simp [h1m, h2, Nat.not_le.mpr h3, h4, h5]
  · unfold canSend recordSent
    simp

/-- Witness for `canSend_layer_order_and_duplicate`: the in-memory layer
fires first on a warmed state. -/
theorem canSend_layer_order_and_duplicate_witness :
    canSend ⟨[7], none⟩ [] 0 7 (some "c1") =
      ((false, "Already sent (in-memory cache)"), ⟨[7], none⟩) :=
  (canSend_layer_order_and_duplicate ⟨[7], none⟩ [] 0 0 7 none (some "c1")).1
    (by decide)

end RateLimit

namespace Sync

/-- **C2.** Local cursor 100, remote summary cursor 103: after `sync_dialogs`
(which marks the gap for backfill) and `process_pending_backfills` (whose
fetch returns messages 101–103), the local cursor equals 103, exactly
messages 101, 102, 103 were added next to the pre-existing message 100, and
`needs_backfill` is false. -/
theorem syncDialogs_backfill_end_to_end :
    syncRun100to103.result.gapsDetected = 1 ∧
    (convLookup syncRun100to103.db.convs 7).map Conv.needsBackfill = some true ∧
    (convLookup backfillRun100to103.db.convs 7).map Conv.lastMsgId = some 103 ∧
    (convLookup backfillRun100to103.db.convs 7).map Conv.needsBackfill = some false ∧
    backfillRun100to103.db.msgs.map MsgRow.msgId = [100, 103, 102, 101] ∧
    backfillRun100to103.backfilled = 3 := by
  decide

/-- **C4, counterexample.** After the gap-3 sync set the cursor to 103, a
backfill whose fetch returns no newer messages moves the cursor back down to
`backfill_from_msg_id = 100` — a decrease without any detected remote
deletion (`deletions_detected = 0`). -/
theorem backfill_cursor_regression_counterexample :
    (convLookup syncRun100to103.db.convs 7).map Conv.lastMsgId = some 103 ∧
    syncRun100to103.result.deletionsDetected = 0 ∧
    (convLookup backfillRunEmptyFetch.db.convs 7).map Conv.lastMsgId = some 100 := by
  decide

/-- **C5, counterexample.** A non-flood error raised while processing peer 1
is recorded in the error list but aborts the whole loop: peer 2's dialog —
which would have been synced inline — is left unprocessed (its conversation
row is never created and nothing is counted as synced). -/
theorem sync_peer_error_aborts_counterexample :
    syncRunPeerError.result.errors = ["construct-conversation failed"] ∧
    syncRunPeerError.result.synced = 0 ∧
    convLookup syncRunPeerError.db.convs 2 = none := by
  decide

/-- Looking a peer up in a conversation list extended on the right still
finds the original row. -/
theorem convLookup_append (convs : List (Int × Conv)) (x : Int × Conv)
    (p : Int) (c : Conv) (h : convLookup convs p = some c) :
    convLookup (convs ++ [x]) p = some c := by
  induction convs with
  | nil => simp [convLookup] at h
  | cons a t ih =>
    unfold convLookup at h ⊢
    by_cases hp : a.1 == p
    · simpa [List.find?_cons, hp] using h
    · simp only [List.cons_append, List.find?_cons, hp] at h ⊢
      exact ih h

/-- Unfolding a lookup over a cons cell. -/
theorem convLookup_cons (a : Int × Conv) (t : List (Int × Conv)) (p : Int) :
    convLookup (a :: t) p = if a.1 = p then some a.2 else convLookup t p := by
  unfold convLookup
  by_cases h : a.1 = p
  · simp [List.find?_cons, h]
  · simp [List.find?_cons, h]

/-- Effect of `inbox_update_conversation`'s UPDATE on a lookup: the updated
peer's row goes through `f`, every other row is untouched. -/
theorem convLookup_update (convs : List (Int × Conv)) (peer p : Int)
    (f : Conv → Conv) :
    convLookup (convs.map fun e => if e.1 == peer then (e.1, f e.2) else e) p =
      if p = peer then (convLookup convs p).map f else convLookup convs p := by
  induction convs with
  | nil => simp [convLookup]
  | cons a t ih =>
    simp only [List.map_cons, convLookup_cons, beq_iff_eq] at ih ⊢
    by_cases hap : a.1 = peer
    · by_cases hpp : p = peer
      · simp [hap, hpp]
      · have hpp' : ¬peer = p := fun h => hpp h.symm
        simp [hap, hpp, hpp', ih]
    · by_cases hp : a.1 = p
      · have hpp : ¬p = peer := fun h => hap (by rw [hp, h])
        simp [hap, hp, hpp]
      · simp [hap, hp, ih]

/-- `inbox_insert_message` never touches the conversation table. -/
theorem inboxInsertMessage_convs (db : Db) (row : MsgRow) :
    ((inboxInsertMessage db row).2).convs = db.convs := by
  unfold inboxInsertMessage
  split <;> rfl

/-- Lookup after `inbox_update_conversation`. -/
theorem convLookup_inboxUpdate (db : Db) (peer p : Int) (f : Conv → Conv) :
    convLookup (inboxUpdateConversation db peer f).convs p =
      if p = peer then (convLookup db.convs p).map f else convLookup db.convs p := by
  unfold inboxUpdateConversation
  exact convLookup_update db.convs peer p f

/-- Lookup after `_update_conversation_last_msg`: the peer's row gets
`last_msg_id = m.id`, other rows are untouched. -/
theorem convLookup_updateLastMsg (db : Db) (peer : Int) (m : TgMessage)
    (myId p : Int) :
    convLookup (updateConversationLastMsg db peer m myId).convs p =
      if p = peer then (convLookup db.convs p).map (setLastMsg peer m myId)
      else convLookup db.convs p := by
  unfold updateConversationLastMsg
  exact convLookup_inboxUpdate db peer p _

/-- `_insert_message_from_dialog` never touches the conversation table. -/
theorem insertMessageFromDialog_convs (db : Db) (peer : Int) (m : TgMessage)
    (myId : Int) :
    (insertMessageFromDialog db peer m myId).convs = db.convs := by
  unfold insertMessageFromDialog
  exact inboxInsertMessage_convs db _

/-- One gap-detection step of `sync_dialogs` never decreases any
conversation's cursor. -/
theorem syncDialogStep_lookup_mono (db : Db) (r : SyncResult) (myId peer : Int)
    (m : TgMessage) (p : Int) (c : Conv) (h : convLookup db.convs p = some c) :
    ∃ c', convLookup (syncDialogStep db r myId peer m).2.convs p = some c' ∧
      c.lastMsgId ≤ c'.lastMsgId := by
  unfold syncDialogStep
  cases hpeer : convLookup db.convs peer with
  | some c0 =>
    simp only [inboxGetOrCreateConversation, hpeer]
    by_cases hp : p = peer
    · subst hp
      have hc0 : c0 = c := by
        rw [h] at hpeer
        exact (Option.some.inj hpeer).symm
      subst hc0
      split_ifs with hg0 htext hg1 hg2
      · refine ⟨setLastMsg p m myId c0, ?_, ?_⟩
        · rw [convLookup_updateLastMsg]
          simp [h]
        · have hid : (setLastMsg p m myId c0).lastMsgId = m.id := rfl
          rw [hid]
          omega
      · exact ⟨c0, h, le_refl _⟩
      · refine ⟨setLastMsg p m myId c0, ?_, ?_⟩
        · rw [convLookup_updateLastMsg, insertMessageFromDialog_convs]
          simp [h]
        · have hid : (setLastMsg p m myId c0).lastMsgId = m.id := rfl
          rw [hid]
          omega
      · refine ⟨({ setLastMsg p m myId c0 with
            needsBackfill := true
            backfillFromMsgId := some c0.lastMsgId }), ?_, ?_⟩
        · rw [convLookup_inboxUpdate, convLookup_updateLastMsg]
          simp [h]
        · have hid : ({ setLastMsg p m myId c0 with
              needsBackfill := true
              backfillFromMsgId := some c0.lastMsgId } : Conv).lastMsgId = m.id := rfl
          rw [hid]
          omega
      · exact ⟨c0, h, le_refl _⟩
    · split_ifs with hg0 htext hg1 hg2
      · refine ⟨c, ?_, le_refl _⟩
        rw [convLookup_updateLastMsg]
        simp [hp, h]
      · exact ⟨c, h, le_refl _⟩
      · refine ⟨c, ?_, le_refl _⟩
        rw [convLookup_updateLastMsg, insertMessageFromDialog_convs]
        simp [hp, h]
      · refine ⟨c, ?_, le_refl _⟩
        rw [convLookup_inboxUpdate, convLookup_updateLastMsg]
        simp [hp, h]
      · exact ⟨c, h, le_refl _⟩
  | none =>
    have hp : ¬p = peer := by
      intro hh
      rw [hh, hpeer] at h
      cases h
    simp only [inboxGetOrCreateConversation, hpeer]
    have h1 : convLookup (db.convs ++ [(peer, defaultConv)]) p = some c :=
      convLookup_append db.convs _ p c h
    split_ifs with hg0 htext hg1 hg2
    · refine ⟨c, ?_, le_refl _⟩
      rw [convLookup_updateLastMsg]
      simp [hp, h1]
    · exact ⟨c, h1, le_refl _⟩
    · refine ⟨c, ?_, le_refl _⟩
      rw [convLookup_updateLastMsg, insertMessageFromDialog_convs]
      simp [hp, h1]
    · refine ⟨c, ?_, le_refl _⟩
      rw [convLookup_inboxUpdate, convLookup_updateLastMsg]
      simp [hp, h1]
    · exact ⟨c, h1, le_refl _⟩

/-- The sync loop never decreases any conversation's cursor. -/
theorem syncDialogsLoop_lookup_mono (dbFail : Int → Option String) (myId : Int)
    (dialogs : List Dialog) :
    ∀ db r p c, convLookup db.convs p = some c →
      ∃ c', convLookup (syncDialogsLoop dbFail myId dialogs db r).2.1.convs p =
          some c' ∧ c.lastMsgId ≤ c'.lastMsgId := by
  induction dialogs with
  | nil =>
    intro db r p c h
    exact ⟨c, h, le_refl _⟩
  | cons d rest ih =>
    intro db r p c h
    unfold syncDialogsLoop
    by_cases hu : d.isUser
    · simp only [hu, Bool.not_true, Bool.false_eq_true, if_false]
      cases hm : d.message with
      | none => exact ih db r p c h
      | some m =>
        cases hf : dbFail d.peerId with
        | some e => exact ⟨c, h, le_refl _⟩
        | none =>
          obtain ⟨c1, h1, hle1⟩ :=
            syncDialogStep_lookup_mono db r myId d.peerId m p c h
          obtain ⟨c2, h2, hle2⟩ := ih _ _ p c1 h1
          exact ⟨c2, h2, le_trans hle1 hle2⟩
    · simp only [Bool.not_eq_true] at hu
      simp only [hu, Bool.not_false, if_true]
      exact ih db r p c h

/-- The backfill insert loop never touches the conversation table. -/
theorem backfillLoop_convs (peer myId : Int) (msgs : List TgMessage) :
    ∀ inserted latest db,
      ((backfillLoop peer myId msgs inserted latest db).2.2).convs = db.convs := by
  induction msgs with
  | nil =>
    intro inserted latest db
    rfl
  | cons m rest ih =>
    intro inserted latest db
    unfold backfillLoop
    by_cases h0 : m.id = 0
    · simp only [h0, if_pos]
      exact ih inserted latest db
    · simp only [h0, if_neg, if_false]
      rw [ih]
      exact inboxInsertMessage_convs db _

/-- The maximum-id accumulator of the backfill loop never decreases. -/
theorem backfillLoop_latest_le (peer myId : Int) (msgs : List TgMessage) :
    ∀ inserted latest db,
      latest ≤ (backfillLoop peer myId msgs inserted latest db).2.1 := by
  induction msgs with
  | nil =>
    intro inserted latest db
    exact le_refl _
  | cons m rest ih =>
    intro inserted latest db
    unfold backfillLoop
    by_cases h0 : m.id = 0
    · simp only [h0, if_pos]
      exact ih inserted latest db
    · simp only [h0, if_neg, if_false]
      refine le_trans ?_ (ih _ _ _)
      split_ifs with hlt
      · exact le_of_lt hlt
      · exact le_refl _

/-- **C4, amended.** `sync_dialogs` never decreases any conversation's
last-message cursor (gap 0 rewrites it in place, gaps 1 and ≥2 advance it,
gap<0 leaves it untouched); `backfill_conversation` sets the cursor to the
maximum of `backfill_from_msg_id` and the fetched ids — never below
`backfill_from_msg_id`, but possibly below the display value a gap≥2 sync
had set, when the fetch returns fewer messages than the gap (see
`backfill_cursor_regression_counterexample`). -/
theorem sync_cursor_monotone_and_backfill_floor :
    (∀ db connected myId fetch dbFail p c,
        convLookup db.convs p = some c →
        ∃ c', convLookup (syncDialogs db connected myId fetch dbFail).db.convs p =
            some c' ∧ c.lastMsgId ≤ c'.lastMsgId) ∧
    (∀ db myId peer fromMsgId messages c,
        convLookup db.convs peer = some c →
        ∃ c', convLookup (backfillConversation db true myId peer fromMsgId
            (.ok messages)).db.convs peer = some c' ∧
          fromMsgId ≤ c'.lastMsgId) := by
  constructor
  · intro db connected myId fetch dbFail p c h
    unfold syncDialogs
    by_cases hc : connected
    · simp only [hc, Bool.not_true, Bool.false_eq_true, if_false]
      cases fetch with
      | ok dialogs =>
        dsimp only
        obtain ⟨c', h', hle⟩ := syncDialogsLoop_lookup_mono dbFail myId dialogs
          db { dialogsFetched := dialogs.length } p c h
        split_ifs with ha
        · exact ⟨c', h', hle⟩
        · exact ⟨c', h', hle⟩
      | floodWait s =>
        dsimp only
        exact ⟨c, h, le_refl _⟩
      | failed msg =>
        dsimp only
        exact ⟨c, h, le_refl _⟩
    · simp only [Bool.not_eq_true] at hc
      simp only [hc, Bool.not_false, if_true]
      exact ⟨c, h, le_refl _⟩
  · intro db myId peer fromMsgId messages c h
    unfold backfillConversation
    simp only [Bool.not_true, Bool.false_eq_true, if_false]
    refine ⟨({ c with
        needsBackfill := false
        backfillFromMsgId := none
        lastMsgId := (backfillLoop peer myId messages 0 fromMsgId db).2.1 }), ?_, ?_⟩
    · rw [convLookup_inboxUpdate]
      have hconvs := backfillLoop_convs peer myId messages 0 fromMsgId db
      simp [hconvs, h]
    · have hid : ({ c with
          needsBackfill := false
          backfillFromMsgId := none
          lastMsgId := (backfillLoop peer myId messages 0 fromMsgId db).2.1 } :
            Conv).lastMsgId =
          (backfillLoop peer myId messages 0 fromMsgId db).2.1 := rfl
      rw [hid]
      exact backfillLoop_latest_le peer myId messages 0 fromMsgId db

/-- Witness for `sync_cursor_monotone_and_backfill_floor` at the concrete
100→103 scenario. -/
theorem sync_cursor_monotone_and_backfill_floor_witness :
    (∃ c', convLookup (syncDialogs dbAt100 true 42 (.ok [dialogAt103])
        (fun _ => none)).db.convs 7 = some c' ∧
      convAt100.lastMsgId ≤ c'.lastMsgId) ∧
    (∃ c', convLookup (backfillConversation dbAt100 true 42 7 100
        (.ok [tgMsg 103, tgMsg 102, tgMsg 101])).db.convs 7 = some c' ∧
      100 ≤ c'.lastMsgId) :=
  ⟨sync_cursor_monotone_and_backfill_floor.1 dbAt100 true 42 (.ok [dialogAt103])
      (fun _ => none) 7 convAt100 (by decide),
    sync_cursor_monotone_and_backfill_floor.2 dbAt100 42 7 100
      [tgMsg 103, tgMsg 102, tgMsg 101] convAt100 (by decide)⟩

/-- A dialog whose conversation read raises stops the loop immediately: the
error is appended and everything after it is untouched. -/
theorem syncDialogsLoop_fail_head (dbFail : Int → Option String) (myId : Int)
    (d : Dialog) (m : TgMessage) (e : String) (post : List Dialog) (db : Db)
    (r : SyncResult) (hu : d.isUser = true) (hm : d.message = some m)
    (hf : dbFail d.peerId = some e) :
    syncDialogsLoop dbFail myId (d :: post) db r =
      ({ r with errors := r.errors ++ [e] }, db, true) := by
  unfold syncDialogsLoop
  simp [hu, hm, hf]

/-- Dialogs after a failing one are never processed: the loop on
`pre ++ d :: post` equals the loop on `pre ++ [d]` when `d`'s conversation
read raises. -/
theorem syncDialogsLoop_fail_append (dbFail : Int → Option String) (myId : Int)
    (pre : List Dialog) :
    ∀ (d : Dialog) m e post db r, d.isUser = true → d.message = some m →
      dbFail d.peerId = some e →
      syncDialogsLoop dbFail myId (pre ++ d :: post) db r =
        syncDialogsLoop dbFail myId (pre ++ [d]) db r := by
  induction pre with
  | nil =>
    intro d m e post db r hu hm hf
    rw [List.nil_append, List.nil_append,
      syncDialogsLoop_fail_head dbFail myId d m e post db r hu hm hf,
      syncDialogsLoop_fail_head dbFail myId d m e [] db r hu hm hf]
  | cons a t ih =>
    intro d m e post db r hu hm hf
    rw [List.cons_append, List.cons_append]
    unfold syncDialogsLoop
    by_cases ha : a.isUser
    · simp only [ha, Bool.not_true, Bool.false_eq_true, if_false]
      cases ham : a.message with
      | none => exact ih d m e post db r hu hm hf
      | some am =>
        cases haf : dbFail a.peerId with
        | some ae => rfl
        | none => exact ih d m e post _ _ hu hm hf
    · simp only [Bool.not_eq_true] at ha
      simp only [ha, Bool.not_false, if_true]
      exact ih d m e post db r hu hm hf

/-- **C5, amended.** A rate-limit signal from the transport (raised by the
single summary fetch) aborts the run and returns the partial result with a
rate-limit error recorded; any other error raised while processing one peer
is likewise recorded in the result's error list and returned to the caller
instead of being raised — but it also aborts processing of the remaining
peers of that run, because the exception handler wraps the whole loop (see
`sync_peer_error_aborts_counterexample`). -/
theorem sync_floodwait_and_peer_error_recorded :
    (∀ db myId s dbFail,
        syncDialogs db true myId (.floodWait s) dbFail =
          ⟨{ errors := ["Rate limited, wait " ++ toString s ++ "s"] }, db, 1⟩) ∧
    (∀ dbFail myId (d : Dialog) m e post db r,
        d.isUser = true → d.message = some m → dbFail d.peerId = some e →
        syncDialogsLoop dbFail myId (d :: post) db r =
          ({ r with errors := r.errors ++ [e] }, db, true)) ∧
    (∀ dbFail myId pre (d : Dialog) m e post db r,
        d.isUser = true → d.message = some m → dbFail d.peerId = some e →
        syncDialogsLoop dbFail myId (pre ++ d :: post) db r =
          syncDialogsLoop dbFail myId (pre ++ [d]) db r) := by
  refine ⟨?_, ?_, ?_⟩
  · intro db myId s dbFail
    rfl
  · intro dbFail myId d m e post db r hu hm hf
    exact syncDialogsLoop_fail_head dbFail myId d m e post db r hu hm hf
  · intro dbFail myId pre d m e post db r hu hm hf
    exact syncDialogsLoop_fail_append dbFail myId pre d m e post db r hu hm hf

/-- Witness for `sync_floodwait_and_peer_error_recorded` at peer 1's failing
dialog. -/
theorem sync_floodwait_and_peer_error_recorded_witness :
    syncDialogsLoop dbFailPeerOne 0 [dialogPeerOne, dialogPeerTwo] ⟨[], [], none⟩
        { dialogsFetched := 2 } =
      ({ dialogsFetched := 2, errors := ["construct-conversation failed"] },
        ⟨[], [], none⟩, true) :=
  (sync_floodwait_and_peer_error_recorded.2.1 dbFailPeerOne 0 dialogPeerOne
    (tgMsg 5) "construct-conversation failed" [dialogPeerTwo] ⟨[], [], none⟩
    { dialogsFetched := 2 } (by decide) (by decide) (by decide))

/-- After an attempted insert, the message store contains the key — whether
the row was fresh or already present. -/
theorem inboxInsertMessage_mem (db : Db) (row : MsgRow) :
    (((inboxInsertMessage db row).2).msgs.any fun r =>
      r.peerId == row.peerId && r.msgId == row.msgId) = true := by
  unfold inboxInsertMessage
  split_ifs with hdup
  · exact hdup
  · simp

/-- `inbox_update_conversation` never touches the message table. -/
theorem inboxUpdateConversation_msgs (db : Db) (peer : Int) (f : Conv → Conv) :
    (inboxUpdateConversation db peer f).msgs = db.msgs := rfl

/-- **C7.** A connected `sync_dialogs` run performs exactly one transport
call — the summary fetch — whatever the dialogs contain (the per-dialog
paths, gap==1 included, perform only local database writes), and on a
gap==1 dialog the already-fetched snapshot message itself is inserted and
the cursor advanced to it without any additional fetch. -/
theorem sync_one_transport_call_and_gap_one_inline :
    (∀ db myId dialogs dbFail,
        (syncDialogs db true myId (.ok dialogs) dbFail).transportCalls = 1) ∧
    (∀ db myId peer (m : TgMessage) c,
        convLookup db.convs peer = some c →
        m.id = c.lastMsgId + 1 →
        (syncDialogs db true myId (.ok [⟨true, peer, some m⟩])
            (fun _ => none)).result.synced = 1 ∧
        ((syncDialogs db true myId (.ok [⟨true, peer, some m⟩])
            (fun _ => none)).db.msgs.any fun row =>
              row.peerId == peer && row.msgId == m.id) = true ∧
        (convLookup (syncDialogs db true myId (.ok [⟨true, peer, some m⟩])
            (fun _ => none)).db.convs peer).map Conv.lastMsgId = some m.id) := by
  constructor
  · intro db myId dialogs dbFail
    unfold syncDialogs
    simp only [Bool.not_true, Bool.false_eq_true, if_false]
    split_ifs <;> rfl
  · intro db myId peer m c h hsucc
    have hg0 : ¬((m.id : Int) - (c.lastMsgId : Int) = 0) := by omega
    have hg1 : (m.id : Int) - (c.lastMsgId : Int) = 1 := by omega
    have hstep : syncDialogStep db { dialogsFetched := 1 } myId peer m =
        ({ dialogsFetched := 1, synced := 1 },
          updateConversationLastMsg (insertMessageFromDialog db peer m myId)
            peer m myId) := by
      unfold syncDialogStep
      simp only [inboxGetOrCreateConversation, h]
      rw [if_neg hg0, if_pos hg1]
    have hloop : syncDialogsLoop (fun _ => none) myId
        [⟨true, peer, some m⟩] db { dialogsFetched := 1 } =
        ({ dialogsFetched := 1, synced := 1 },
          updateConversationLastMsg (insertMessageFromDialog db peer m myId)
            peer m myId, false) := by
      simp only [syncDialogsLoop]
      rw [hstep]
      simp
    have hfin : syncDialogs db true myId (.ok [⟨true, peer, some m⟩])
        (fun _ => none) =
        ⟨{ dialogsFetched := 1, synced := 1 },
          ({ updateConversationLastMsg (insertMessageFromDialog db peer m myId)
              peer m myId with connState := some (true, 1) }), 1⟩ := by
      unfold syncDialogs
      simp only [Bool.not_true, Bool.false_eq_true, if_false]
      simp only [List.length_cons, List.length_nil, Nat.zero_add]
      rw [hloop]
      rfl
    rw [hfin]
    refine ⟨rfl, ?_, ?_⟩
    · show (((insertMessageFromDialog db peer m myId).msgs).any fun row =>
        row.peerId == peer && row.msgId == m.id) = true
      exact inboxInsertMessage_mem db _
    · show (convLookup (updateConversationLastMsg
        (insertMessageFromDialog db peer m myId) peer m myId).convs peer).map
          Conv.lastMsgId = some m.id
      rw [convLookup_updateLastMsg]
      simp only [if_pos rfl, insertMessageFromDialog_convs, h]
      rfl

/-- Witness for `sync_one_transport_call_and_gap_one_inline` at a concrete
gap==1 dialog (cursor 100, snapshot message 101). -/
theorem sync_one_transport_call_and_gap_one_inline_witness :
    (syncDialogs dbAt100 true 42 (.ok [⟨true, 7, some (tgMsg 101)⟩])
        (fun _ => none)).result.synced = 1 ∧
    ((syncDialogs dbAt100 true 42 (.ok [⟨true, 7, some (tgMsg 101)⟩])
        (fun _ => none)).db.msgs.any fun row =>
          row.peerId == 7 && row.msgId == (tgMsg 101).id) = true ∧
    (convLookup (syncDialogs dbAt100 true 42 (.ok [⟨true, 7, some (tgMsg 101)⟩])
        (fun _ => none)).db.convs 7).map Conv.lastMsgId = some (tgMsg 101).id :=
  sync_one_transport_call_and_gap_one_inline.2 dbAt100 42 7 (tgMsg 101) convAt100
    (by decide) (by decide)

end Sync

namespace Pool

/-- Dict assignment keeps the key list's distinctness. -/
theorem assocStore_keys_nodup {α : Type} (l : List (String × α)) (k : String)
    (v : α) (h : (l.map fun e => e.1).Nodup) :
    ((assocStore l k v).map fun e => e.1).Nodup := by
  unfold assocStore
  split_ifs with hany
  · have hkeys : ((l.map fun e => if e.1 == k then (k, v) else e).map fun e => e.1) =
        l.map fun e => e.1 := by
      rw [List.map_map]
      apply List.map_congr_left
      intro e he
      by_cases hk : e.1 = k
      · simp only [Function.comp_apply, beq_iff_eq, hk, if_true]
      · simp [Function.comp_apply, beq_iff_eq, hk]
    rw [hkeys]
    exact h
  · rw [List.map_append]
    rw [List.nodup_append]
    refine ⟨h, List.nodup_singleton k, ?_⟩
    intro a ha hb
    simp only [List.map_cons, List.map_nil, List.mem_singleton] at hb
    subst hb
    apply hany
    rw [List.any_eq_true]
    obtain ⟨e, he, hek⟩ := List.mem_map.mp ha
    exact ⟨e, he, by simp [hek]⟩

/-- Filtering keeps the key list's distinctness. -/
theorem filter_keys_nodup {α : Type} (l : List (String × α))
    (p : String × α → Bool) (h : (l.map fun e => e.1).Nodup) :
    ((l.filter p).map fun e => e.1).Nodup :=
  h.sublist ((l.filter_sublist).map fun e => e.1)

/-- The connect section keeps the client dict's keys distinct. -/
theorem getClientConnect_keys_nodup (s : PoolState) (p : String)
    (outcome : ConnectOutcome) (h : (s.clients.map fun e => e.1).Nodup) :
    (((getClientConnect s p outcome).2).clients.map fun e => e.1).Nodup := by
  cases outcome with
  | success => exact assocStore_keys_nodup s.clients p _ h
  | notAuthorized => exact h
  | authKeyUnregistered => exact h
  | banned => exact h
  | otherFailure msg => exact h

/-- `get_client` keeps the client dict's keys distinct. -/
theorem getClient_keys_nodup (s : PoolState) (phone : String) (haveCreds : Bool)
    (outcome : ConnectOutcome) (h : (s.clients.map fun e => e.1).Nodup) :
    (((getClient s phone haveCreds outcome).2).clients.map fun e => e.1).Nodup := by
  simp only [getClient]
  cases hl : assocLookup s.clients (connNormalizePhone phone) with
  | some entry =>
    dsimp only
    split_ifs with hc
    · exact h
    · exact getClientConnect_keys_nodup s _ outcome h
  | none =>
    dsimp only
    split_ifs with hcreds
    · exact getClientConnect_keys_nodup s _ outcome h
    · exact h

/-- Every pool operation keeps the client dict's keys distinct. -/
theorem poolStep_keys_nodup (s : PoolState) (op : PoolOp)
    (h : (s.clients.map fun e => e.1).Nodup) :
    ((poolStep s op).clients.map fun e => e.1).Nodup := by
  cases op with
  | acquire phone haveCreds outcome => exact getClient_keys_nodup s phone haveCreds outcome h
  | disconnect phone =>
    show (((disconnectAccount s phone).clients).map fun e => e.1).Nodup
    simp only [disconnectAccount]
    cases hl : assocLookup s.clients (connNormalizePhone phone) with
    | none => exact h
    | some entry => exact filter_keys_nodup s.clients _ h
  | drop cid => exact h

/-- Any run from a fresh pool keeps the client dict's keys distinct. -/
theorem poolRun_keys_nodup (ops : List PoolOp) :
    ∀ s : PoolState, (s.clients.map fun e => e.1).Nodup →
      ((poolRun s ops).clients.map fun e => e.1).Nodup := by
  induction ops with
  | nil =>
    intro s h
    exact h
  | cons op rest ih =>
    intro s h
    exact ih (poolStep s op) (poolStep_keys_nodup s op h)

/-- With distinct keys, at most one dict entry carries a given phone. -/
theorem filter_key_length_le_one {α : Type} (l : List (String × α)) (p : String)
    (h : (l.map fun e => e.1).Nodup) :
    (l.filter fun e => e.1 == p).length ≤ 1 := by
  induction l with
  | nil => simp
  | cons a t ih =>
    simp only [List.map_cons, List.nodup_cons] at h
    by_cases hp : a.1 = p
    · have hrest : (t.filter fun e => e.1 == p).length = 0 := by
        rw [List.length_eq_zero, List.filter_eq_nil_iff]
        intro e he hee
        apply h.1
        rw [List.mem_map]
        exact ⟨e, he, by rw [beq_iff_eq] at hee; rw [hee, hp]⟩
      simp [List.filter_cons, hp, hrest]
    · simp only [List.filter_cons, beq_iff_eq, hp, if_false]
      exact ih h.2

/-- A conjunctive filter is at most as long as the key filter. -/
theorem length_filter_and_le {α : Type} (l : List (String × α)) (p : String)
    (q : String × α → Bool) :
    (l.filter fun e => e.1 == p && q e).length ≤
      (l.filter fun e => e.1 == p).length := by
  induction l with
  | nil => simp
  | cons a t ih =>
    simp only [List.filter_cons]
    by_cases h1 : (a.1 == p) = true
    · by_cases h2 : q a = true
      · simp only [h1, h2, Bool.true_and, if_true, List.length_cons]
        exact Nat.succ_le_succ ih
      · have h2f : q a = false := by simpa using h2
        simp only [h1, h2f, Bool.true_and, if_true, List.length_cons]
        exact Nat.le_succ_of_le ih
    · have h1f : (a.1 == p) = false := by simpa using h1
      simp only [h1f, Bool.false_and, if_false]
      exact ih

/-- With distinct keys, a phone has at most one live client in the pool. -/
theorem livePoolClients_le_one (s : PoolState) (p : String)
    (h : (s.clients.map fun e => e.1).Nodup) :
    (livePoolClients s p).length ≤ 1 := by
  unfold livePoolClients
  rw [List.length_map]
  exact le_trans (length_filter_and_le s.clients p _)
    (filter_key_length_le_one s.clients p h)

/-- **C1.** The pool keys sessions by normalized phone and stores a new
client only by replacing the entry for that phone, so after any sequence of
acquire / disconnect / connection-drop operations from a fresh pool, the
client dict's keys are distinct and every account has at most one live
client in the pool; moreover an acquire that finds the stored client
connected returns exactly that client with the pool unchanged — no second
client is created. -/
theorem pool_single_live_session_per_account :
    (∀ connStates ops,
        ((poolRun (initialPool connStates) ops).clients.map fun e => e.1).Nodup ∧
        ∀ p, (livePoolClients (poolRun (initialPool connStates) ops) p).length ≤ 1) ∧
    (∀ s phone haveCreds outcome entry,
        assocLookup s.clients (connNormalizePhone phone) = some entry →
        s.connectedIds.contains entry.cid = true →
        getClient s phone haveCreds outcome = (some entry.cid, s)) := by
  constructor
  · intro connStates ops
    have hnodup := poolRun_keys_nodup ops (initialPool connStates) (by
      simp [initialPool])
    exact ⟨hnodup, fun p => livePoolClients_le_one _ p hnodup⟩
  · intro s phone haveCreds outcome entry hlook hconn
    unfold getClient
    simp only [hlook, hconn, if_true]

/-- Witness for `pool_single_live_session_per_account`: a pool holding a
connected client 0 for account 15551234 returns it unchanged. -/
theorem pool_single_live_session_per_account_witness :
    getClient ⟨[("15551234", ⟨0, none⟩)], [0], [], [], 1⟩ "+15551234" false
        .banned =
      (some 0, ⟨[("15551234", ⟨0, none⟩)], [0], [], [], 1⟩) :=
  pool_single_live_session_per_account.2
    ⟨[("15551234", ⟨0, none⟩)], [0], [], [], 1⟩ "+15551234" false .banned
    ⟨0, none⟩ (by decide) (by decide)

/-- Unfolding a dict lookup over a cons cell. -/
theorem assocLookup_cons {α : Type} (a : String × α) (t : List (String × α))
    (k : String) :
    assocLookup (a :: t) k = if a.1 = k then some a.2 else assocLookup t k := by
  unfold assocLookup
  by_cases h : a.1 = k
  · simp [List.find?_cons, h]
  · simp [List.find?_cons, h]

/-- An upserted key reads back the stored value. -/
theorem assocLookup_store_self {α : Type} (l : List (String × α)) (k : String)
    (v : α) : assocLookup (assocStore l k v) k = some v := by
  unfold assocStore
  split_ifs with hany
  · induction l with
    | nil => simp at hany
    | cons a t ih =>
      simp only [List.any_cons, Bool.or_eq_true] at hany
      simp only [List.map_cons]
      by_cases hk : a.1 = k
      · rw [if_pos (beq_iff_eq.mpr hk), assocLookup_cons]
        simp
      · have hkb : ¬((a.1 == k) = true) := by simpa using hk
        have hany' : (t.any fun e => e.1 == k) = true := by
          rcases hany with h1 | h2
          · exact absurd (beq_iff_eq.mp h1) hk
          · exact h2
        rw [if_neg hkb, assocLookup_cons]
        simp only [hk, if_false]
        exact ih hany'
  · induction l with
    | nil =>
      rw [List.nil_append, assocLookup_cons]
      simp
    | cons a t ih =>
      have hk : ¬a.1 = k := by
        intro hh
        exact hany (by simp [List.any_cons, hh])
      have hany' : ¬(t.any fun e => e.1 == k) = true := by
        intro hh
        exact hany (by simp [List.any_cons, hh])
      rw [List.cons_append, assocLookup_cons]
      simp only [hk, if_false]
      exact ih hany'

/-- The connect section never writes any connection state. -/
theorem getClientConnect_connStates (s : PoolState) (p : String)
    (outcome : ConnectOutcome) :
    ((getClientConnect s p outcome).2).connStates = s.connStates := by
  cases outcome <;> rfl

/-- `get_client` never writes any connection state, whatever happens. -/
theorem getClient_connStates (s : PoolState) (phone : String) (haveCreds : Bool)
    (outcome : ConnectOutcome) :
    ((getClient s phone haveCreds outcome).2).connStates = s.connStates := by
  simp only [getClient]
  cases hl : assocLookup s.clients (connNormalizePhone phone) with
  | some entry =>
    dsimp only
    split_ifs with hc
    · rfl
    · exact getClientConnect_connStates s _ outcome
  | none =>
    dsimp only
    split_ifs with hcreds
    · exact getClientConnect_connStates s _ outcome
    · rfl

/-- **C8, counterexample.** On a `UserDeactivatedBanError` `get_client`
returns `None` but marks nothing: the stored connection state for the
account stays `connected` — not `error` — and an authorization failure
likewise leaves every account state untouched rather than writing
`auth_required`. -/
theorem getClient_ban_no_marking_counterexample :
    (getClient poolBanScenario "+15551234" true .banned).1 = none ∧
    (getClient poolBanScenario "+15551234" true .banned).2.connStates =
      poolBanScenario.connStates ∧
    assocLookup (getClient poolBanScenario "+15551234" true
      .banned).2.connStates "15551234" = some "connected" ∧
    (getClient poolBanScenario "+15551234" true .notAuthorized).2.connStates =
      poolBanScenario.connStates := by
  decide

/-- **C8, amended.** `get_client` never raises (every path is a `return`,
modelled by a total function into `Option`): on authorization failure,
auth-key invalidation, ban/deactivation or any other connect failure it
logs and returns `None`, and it performs no account-state write on any
path; the marking is done by its caller `InboxManager.connect_account`,
which persists `auth_required` for every kind of failure (ban included). -/
theorem getClient_failures_return_none_no_marking :
    (∀ s phone haveCreds outcome,
        ((getClient s phone haveCreds outcome).2).connStates = s.connStates) ∧
    (∀ s p outcome, outcome ≠ ConnectOutcome.success →
        getClientConnect s p outcome = (none, { s with nextId := s.nextId + 1 })) ∧
    (∀ s phone haveCreds outcome,
        (getClient s phone haveCreds outcome).1 = none →
        (connectAccount s phone true haveCreds outcome).1 = false ∧
        assocLookup (connectAccount s phone true haveCreds
            outcome).2.connStates (amNormalizePhone phone) =
          some "auth_required") := by
  refine ⟨getClient_connStates, ?_, ?_⟩
  · intro s p outcome hne
    cases outcome with
    | success => exact absurd rfl hne
    | notAuthorized => rfl
    | authKeyUnregistered => rfl
    | banned => rfl
    | otherFailure msg => rfl
  · intro s phone haveCreds outcome hnone
    constructor
    · unfold connectAccount
      simp [hnone]
    · unfold connectAccount
      simp only [Bool.not_true, Bool.false_eq_true, if_false, hnone,
        inboxUpdateConnState]
      exact assocLookup_store_self _ _ _

/-- Witness for `getClient_failures_return_none_no_marking`: a banned
account gets `None` from the connect section, and `connect_account` then
stores `auth_required` (not `error`). -/
theorem getClient_failures_return_none_no_marking_witness :
    getClientConnect poolBanScenario "15551234" .banned =
      (none, { poolBanScenario with nextId := 1 }) ∧
    (connectAccount poolBanScenario "+15551234" true true .banned).1 = false ∧
    assocLookup (connectAccount poolBanScenario "+15551234" true true
        .banned).2.connStates (amNormalizePhone "+15551234") =
      some "auth_required" :=
  ⟨getClient_failures_return_none_no_marking.2.1 poolBanScenario "15551234"
      .banned (by decide),
    (getClient_failures_return_none_no_marking.2.2 poolBanScenario "+15551234"
      true .banned (by decide)).1,
    (getClient_failures_return_none_no_marking.2.2 poolBanScenario "+15551234"
      true .banned (by decide)).2⟩

/-- The connect section never touches the operation locks. -/
theorem getClientConnect_opLocks (s : PoolState) (p : String)
    (outcome : ConnectOutcome) :
    ((getClientConnect s p outcome).2).opLocks = s.opLocks := by
  cases outcome <;> rfl

/-- `get_client` never touches the operation locks. -/
theorem getClient_opLocks (s : PoolState) (phone : String) (haveCreds : Bool)
    (outcome : ConnectOutcome) :
    ((getClient s phone haveCreds outcome).2).opLocks = s.opLocks := by
  simp only [getClient]
  cases hl : assocLookup s.clients (connNormalizePhone phone) with
  | some entry =>
    dsimp only
    split_ifs with hc
    · rfl
    · exact getClientConnect_opLocks s _ outcome
  | none =>
    dsimp only
    split_ifs with hcreds
    · exact getClientConnect_opLocks s _ outcome
    · rfl

/-- **C10.** Unlike `get_client`, `with_client` raises to its caller: for
every input on which the underlying `get_client` returns `None` (auth
failure, ban, or any other connect error), `with_client` raises a
`RuntimeError` instead of yielding — the caller's block never runs (the
outcome is independent of it) — and the per-account operation mutex is
released on exit. -/
theorem withClient_raises_and_releases (s : PoolState) (phone : String)
    (haveCreds : Bool) (outcome : ConnectOutcome) (opName : Option String)
    (body body' : Nat → PoolState → PoolState)
    (hfree : connNormalizePhone phone ∉ s.opLocks)
    (hnone : (getClient
        { s with opLocks := connNormalizePhone phone :: s.opLocks }
        phone haveCreds outcome).1 = none) :
    (withClient s phone haveCreds outcome opName body).1 =
      .error ("Failed to get client for " ++ connNormalizePhone phone) ∧
    (withClient s phone haveCreds outcome opName body).2.opLocks = s.opLocks ∧
    connNormalizePhone phone ∉
      (withClient s phone haveCreds outcome opName body).2.opLocks ∧
    withClient s phone haveCreds outcome opName body =
      withClient s phone haveCreds outcome opName body' := by
  have hop := getClient_opLocks
    { s with opLocks := connNormalizePhone phone :: s.opLocks }
    phone haveCreds outcome
  have hw : ∀ b : Nat → PoolState → PoolState,
      withClient s phone haveCreds outcome opName b =
        (.error ("Failed to get client for " ++ connNormalizePhone phone),
          { (getClient { s with opLocks := connNormalizePhone phone :: s.opLocks }
              phone haveCreds outcome).2 with
            opLocks := ((getClient
              { s with opLocks := connNormalizePhone phone :: s.opLocks }
              phone haveCreds outcome).2.opLocks).erase
                (connNormalizePhone phone) }) := by
    intro b
    simp only [withClient, hnone]
  have herase : ((getClient
      { s with opLocks := connNormalizePhone phone :: s.opLocks }
      phone haveCreds outcome).2.opLocks).erase (connNormalizePhone phone) =
      s.opLocks := by
    rw [hop]
    exact List.erase_cons_head _ _
  refine ⟨?_, ?_, ?_, ?_⟩
  · rw [hw body]
  · rw [hw body]
    exact herase
  · rw [hw body]
    show connNormalizePhone phone ∉ (_ : List String).erase _
    rw [herase]
    exact hfree
  · rw [hw body, hw body']

/-- Witness for `withClient_raises_and_releases`: without credentials and no
stored client, `with_client` raises and leaves the lock set empty. -/
theorem withClient_raises_and_releases_witness :
    (withClient (initialPool []) "+15551234" false .success none
        (fun _ st => st)).1 =
      .error ("Failed to get client for " ++ connNormalizePhone "+15551234") ∧
    (withClient (initialPool []) "+15551234" false .success none
        (fun _ st => st)).2.opLocks = [] ∧
    withClient (initialPool []) "+15551234" false .success none
        (fun _ st => st) =
      withClient (initialPool []) "+15551234" false .success none
        (fun c st => dropConnection st c) :=
  have h := withClient_raises_and_releases (initialPool []) "+15551234" false
    .success none (fun _ st => st) (fun c st => dropConnection st c)
    (by simp [initialPool]) (by decide)
  ⟨h.1, h.2.1, h.2.2.2⟩

end Pool

namespace Orchestrator

/-- Unfolding a sub-state lookup over a cons cell. -/
theorem acctLookup_cons (a : String × AcctProgress)
    (t : List (String × AcctProgress)) (p : String) :
    acctLookup (a :: t) p = if a.1 = p then some a.2 else acctLookup t p := by
  unfold acctLookup
  by_cases h : a.1 = p
  · simp [List.find?_cons, h]
  · simp [List.find?_cons, h]

/-- Effect of a keyed in-place update on a lookup: the updated phone's entry
goes through `f`, every other entry is untouched. -/
theorem acctLookup_mapUpdate (l : List (String × AcctProgress))
    (phone q : String) (f : AcctProgress → AcctProgress) :
    acctLookup (l.map fun e => if e.1 == phone then (e.1, f e.2) else e) q =
      if q = phone then (acctLookup l q).map f else acctLookup l q := by
  induction l with
  | nil => simp [acctLookup]
  | cons a t ih =>
    simp only [List.map_cons, acctLookup_cons, beq_iff_eq] at ih ⊢
    by_cases hap : a.1 = phone
    · by_cases hpp : q = phone
      · simp [hap, hpp]
      · have hpp' : ¬phone = q := fun h => hpp h.symm
        simp [hap, hpp, hpp', ih]
    · by_cases hp : a.1 = q
      · have hpp : ¬q = phone := fun h => hap (by rw [hp, h])
        simp [hap, hp, hpp]
      · simp [hap, hp, ih]

/-- `update_account_progress` seen through a lookup. -/
theorem acctLookup_updateProgress (op : OpState) (phone q : String)
    (progress total : Nat) (status message : String) (error : Option String) :
    acctLookup (updateAccountProgress op phone progress total status message
        error).accounts q =
      if q = phone then
        (acctLookup op.accounts q).map fun a => { a with
          progress := progress
          total := total
          status := status
          message := message
          error := error }
      else acctLookup op.accounts q := by
  unfold updateAccountProgress
  exact acctLookup_mapUpdate op.accounts phone q fun a => { a with
    progress := progress
    total := total
    status := status
    message := message
    error := error }

/-- `add_account_log` seen through a lookup. -/
theorem acctLookup_addLog (op : OpState) (phone q message : String) :
    acctLookup (addAccountLog op phone message).accounts q =
      if q = phone then
        (acctLookup op.accounts q).map fun a =>
          { a with logs := a.logs ++ [message] }
      else acctLookup op.accounts q := by
  unfold addAccountLog
  exact acctLookup_mapUpdate op.accounts phone q fun a =>
    { a with logs := a.logs ++ [message] }

/-- `run_for_account` never changes the job-level status. -/
theorem runForAccount_status (st : RunnerState) (phone : String)
    (o : AcctOutcome) :
    ((runForAccount st phone o).2).op.status = st.op.status := by
  cases o with
  | lockTimeout => rfl
  | accountNotFound =>
    simp only [runForAccount]
    split_ifs <;> rfl
  | connectFailed =>
    simp only [runForAccount]
    split_ifs <;> rfl
  | runOk =>
    simp only [runForAccount]
    split_ifs <;> rfl
  | runError msg =>
    simp only [runForAccount]
    split_ifs <;> rfl

/-- `run_for_account` touches only its own account's sub-state. -/
theorem runForAccount_lookup_other (st : RunnerState) (phone q : String)
    (o : AcctOutcome) (hq : ¬q = phone) :
    acctLookup ((runForAccount st phone o).2).op.accounts q =
      acctLookup st.op.accounts q := by
  cases o with
  | lockTimeout =>
    simp only [runForAccount]
    rw [acctLookup_updateProgress, if_neg hq, acctLookup_addLog, if_neg hq]
  | accountNotFound =>
    simp only [runForAccount, acquireAndStart]
    split_ifs
    · rw [acctLookup_updateProgress, if_neg hq, acctLookup_addLog, if_neg hq]
    · rw [acctLookup_updateProgress, if_neg hq, acctLookup_addLog, if_neg hq,
        acctLookup_updateProgress, if_neg hq, acctLookup_addLog, if_neg hq]
  | connectFailed =>
    simp only [runForAccount, acquireAndStart]
    split_ifs
    · rw [acctLookup_updateProgress, if_neg hq, acctLookup_addLog, if_neg hq]
    · rw [acctLookup_updateProgress, if_neg hq, acctLookup_addLog, if_neg hq,
        acctLookup_addLog, if_neg hq, acctLookup_updateProgress, if_neg hq,
        acctLookup_addLog, if_neg hq]
  | runOk =>
    simp only [runForAccount, acquireAndStart]
    split_ifs
    · rw [acctLookup_updateProgress, if_neg hq, acctLookup_addLog, if_neg hq]
    · rw [acctLookup_addLog, if_neg hq, acctLookup_updateProgress, if_neg hq,
        acctLookup_updateProgress, if_neg hq, acctLookup_addLog, if_neg hq,
        acctLookup_updateProgress, if_neg hq, acctLookup_addLog, if_neg hq]
  | runError msg =>
    simp only [runForAccount, acquireAndStart]
    split_ifs
    · rw [acctLookup_updateProgress, if_neg hq, acctLookup_addLog, if_neg hq]
    · rw [acctLookup_updateProgress, if_neg hq, acctLookup_addLog, if_neg hq,
        acctLookup_updateProgress, if_neg hq, acctLookup_addLog, if_neg hq,
        acctLookup_updateProgress, if_neg hq, acctLookup_addLog, if_neg hq]

/-- On a non-cancelled job, `run_for_account` leaves its account in a
terminal sub-state, and a lock timeout leaves exactly the `error` /
"Lock timeout" pair. -/
theorem runForAccount_lookup_self (st : RunnerState) (phone : String)
    (o : AcctOutcome) (a : AcctProgress)
    (hst : st.op.status = "pending")
    (ha : acctLookup st.op.accounts phone = some a) :
    ∃ b, acctLookup ((runForAccount st phone o).2).op.accounts phone = some b ∧
      (b.status = "completed" ∨ b.status = "error") ∧
      (o = .lockTimeout → b.status = "error" ∧ b.error = some "Lock timeout") := by
  have hcanc : ((acquireAndStart st phone).op.status == "cancelled") = false := by
    have : (acquireAndStart st phone).op.status = st.op.status := rfl
    rw [this, hst]
    rfl
  cases o with
  | lockTimeout =>
    simp only [runForAccount]
    rw [acctLookup_updateProgress, if_pos rfl, acctLookup_addLog, if_pos rfl, ha]
    exact ⟨_, rfl, Or.inr rfl, fun _ => ⟨rfl, rfl⟩⟩
  | accountNotFound =>
    simp only [runForAccount, hcanc, Bool.false_eq_true, if_false]
    rw [acctLookup_updateProgress, if_pos rfl, acctLookup_addLog, if_pos rfl]
    show ∃ b, (((acctLookup (acquireAndStart st phone).op.accounts
      phone).map _).map _) = some b ∧ _
    rw [show acctLookup (acquireAndStart st phone).op.accounts phone =
        acctLookup (acquireAndStart st phone).op.accounts phone from rfl]
    unfold acquireAndStart
    rw [acctLookup_updateProgress, if_pos rfl, acctLookup_addLog, if_pos rfl, ha]
    exact ⟨_, rfl, Or.inr rfl, by intro h; cases h⟩
  | connectFailed =>
    simp only [runForAccount, hcanc, Bool.false_eq_true, if_false]
    rw [acctLookup_updateProgress, if_pos rfl, acctLookup_addLog, if_pos rfl,
      acctLookup_addLog, if_pos rfl]
    unfold acquireAndStart
    rw [acctLookup_updateProgress, if_pos rfl, acctLookup_addLog, if_pos rfl, ha]
    exact ⟨_, rfl, Or.inr rfl, by intro h; cases h⟩
  | runOk =>
    simp only [runForAccount, hcanc, Bool.false_eq_true, if_false]
    rw [acctLookup_addLog, if_pos rfl, acctLookup_updateProgress, if_pos rfl,
      acctLookup_updateProgress, if_pos rfl, acctLookup_addLog, if_pos rfl]
    unfold acquireAndStart
    rw [acctLookup_updateProgress, if_pos rfl, acctLookup_addLog, if_pos rfl, ha]
    exact ⟨_, rfl, Or.inl rfl, by intro h; cases h⟩
  | runError msg =>
    simp only [runForAccount, hcanc, Bool.false_eq_true, if_false]
    rw [acctLookup_updateProgress, if_pos rfl, acctLookup_addLog, if_pos rfl,
      acctLookup_updateProgress, if_pos rfl, acctLookup_addLog, if_pos rfl]
    unfold acquireAndStart
    rw [acctLookup_updateProgress, if_pos rfl, acctLookup_addLog, if_pos rfl, ha]
    exact ⟨_, rfl, Or.inr rfl, by intro h; cases h⟩

/-- The sequential loop never changes the job-level status. -/
theorem runAccountsLoop_status (accounts : List (String × AcctOutcome)) :
    ∀ st results,
      ((runAccountsLoop st results accounts).1).op.status = st.op.status := by
  induction accounts with
  | nil =>
    intro st results
    rfl
  | cons pr rest ih =>
    intro st results
    obtain ⟨phone, outcome⟩ := pr
    simp only [runAccountsLoop]
    rw [ih, runForAccount_status]
    rfl

/-- The loop touches only the listed accounts' sub-states. -/
theorem runAccountsLoop_lookup_other (accounts : List (String × AcctOutcome)) :
    ∀ st results q, q ∉ accounts.map (fun e => e.1) →
      acctLookup ((runAccountsLoop st results accounts).1).op.accounts q =
        acctLookup st.op.accounts q := by
  induction accounts with
  | nil =>
    intro st results q hq
    rfl
  | cons pr rest ih =>
    intro st results q hq
    obtain ⟨phone, outcome⟩ := pr
    simp only [List.map_cons, List.mem_cons, not_or] at hq
    simp only [runAccountsLoop]
    rw [ih _ _ q hq.2, runForAccount_lookup_other _ _ _ _ hq.1]
    show acctLookup (addAccountLog st.op phone
      "Starting operation for account...").accounts q = acctLookup st.op.accounts q
    rw [acctLookup_addLog, if_neg hq.1]

/-- Every listed account reaches a terminal sub-state; a lock timeout leaves
exactly the `error` / "Lock timeout" pair. -/
theorem runAccountsLoop_terminal (accounts : List (String × AcctOutcome)) :
    ∀ st results,
      (accounts.map fun e => e.1).Nodup →
      st.op.status = "pending" →
      (∀ pr ∈ accounts, ∃ a, acctLookup st.op.accounts pr.1 = some a) →
      ∀ pr ∈ accounts, ∃ b,
        acctLookup ((runAccountsLoop st results accounts).1).op.accounts pr.1 =
          some b ∧
        (b.status = "completed" ∨ b.status = "error") ∧
        (pr.2 = .lockTimeout → b.status = "error" ∧
          b.error = some "Lock timeout") := by
  induction accounts with
  | nil =>
    intro st results _ _ _ pr hmem
    cases hmem
  | cons hd rest ih =>
    intro st results hnodup hst hpresent pr hmem
    obtain ⟨phone, outcome⟩ := hd
    simp only [List.map_cons, List.nodup_cons] at hnodup
    simp only [runAccountsLoop]
    rw [List.mem_cons] at hmem
    rcases hmem with hmem | hmem
    · subst hmem
      obtain ⟨a, ha⟩ := hpresent (phone, outcome) (List.mem_cons_self _ _)
      have ha1 : acctLookup ((⟨addAccountLog st.op phone
          "Starting operation for account...", st.locks⟩ :
            RunnerState)).op.accounts phone =
          some { a with logs := a.logs ++ ["Starting operation for account..."] } := by
        show acctLookup (addAccountLog st.op phone
          "Starting operation for account...").accounts phone = _
        rw [acctLookup_addLog, if_pos rfl, ha]
        rfl
      obtain ⟨b, hb, hterm, htimeout⟩ := runForAccount_lookup_self
        ⟨addAccountLog st.op phone "Starting operation for account...", st.locks⟩
        phone outcome _ hst ha1
      rw [runAccountsLoop_lookup_other rest _ _ phone hnodup.1]
      exact ⟨b, hb, hterm, htimeout⟩
    · have hq : ¬pr.1 = phone := by
        intro h
        exact hnodup.1 (h ▸ List.mem_map_of_mem (fun e => e.1) hmem)
      refine ih _ _ hnodup.2 ?_ ?_ pr hmem
      · rw [runForAccount_status]
        exact hst
      · intro pr' hmem'
        have hq' : ¬pr'.1 = phone := by
          intro h
          exact hnodup.1 (h ▸ List.mem_map_of_mem (fun e => e.1) hmem')
        obtain ⟨a, ha⟩ := hpresent pr' (List.mem_cons_of_mem _ hmem')
        refine ⟨a, ?_⟩
        rw [runForAccount_lookup_other _ _ _ _ hq']
        show acctLookup (addAccountLog st.op phone
          "Starting operation for account...").accounts pr'.1 = some a
        rw [acctLookup_addLog, if_neg hq']
        exact ha

/-- Every phone given to `create_operation` gets a pending sub-state. -/
theorem createOperation_lookup (phones : List String) (p : String)
    (hp : p ∈ phones) :
    acctLookup (createOperation phones).accounts p = some pendingAcct := by
  unfold createOperation
  induction phones with
  | nil => cases hp
  | cons q t ih =>
    rw [List.mem_cons] at hp
    show acctLookup ((q, pendingAcct) :: t.map fun x => (x, pendingAcct)) p = _
    rw [acctLookup_cons]
    by_cases hq : q = p
    · simp [hq]
    · rcases hp with hp | hp
      · exact absurd hp.symm hq
      · simp only [hq, if_false]
        exact ih hp

/-- **C9.** In the strictly sequential multi-account runner, a per-account
lock-acquisition timeout makes only that account's sub-state terminal with
an `error` / "Lock timeout", the loop continues to the remaining accounts —
every listed account reaches a terminal sub-state (`completed` or `error`)
— and the job itself still completes (`complete_operation` marks it
`completed`). -/
theorem sequential_runner_lock_timeout_isolated
    (accounts : List (String × AcctOutcome)) (locks : List String)
    (hnodup : (accounts.map fun e => e.1).Nodup) :
    (executeMultiAccountOperation (createOperation (accounts.map fun e => e.1))
        locks accounts).status = "completed" ∧
    ∀ pr ∈ accounts, ∃ b,
      acctLookup (executeMultiAccountOperation
          (createOperation (accounts.map fun e => e.1)) locks
          accounts).accounts pr.1 = some b ∧
      (b.status = "completed" ∨ b.status = "error") ∧
      (pr.2 = .lockTimeout → b.status = "error" ∧
        b.error = some "Lock timeout") := by
  constructor
  · rfl
  · intro pr hmem
    have hpresent : ∀ pr' ∈ accounts, ∃ a,
        acctLookup (createOperation (accounts.map fun e => e.1)).accounts
          pr'.1 = some a := by
      intro pr' hmem'
      exact ⟨pendingAcct, createOperation_lookup _ _
        (List.mem_map_of_mem (fun e => e.1) hmem')⟩
    have hloop := runAccountsLoop_terminal accounts
      ⟨createOperation (accounts.map fun e => e.1), locks⟩ [] hnodup rfl
      hpresent pr hmem
    exact hloop

/-- Witness for `sequential_runner_lock_timeout_isolated`: accounts
[A, B, C] where B's lock acquisition times out — B's sub-state is the
`error` / "Lock timeout" pair and the job still completes. -/
theorem sequential_runner_lock_timeout_isolated_witness :
    (executeMultiAccountOperation (createOperation
        ([("A", AcctOutcome.runOk), ("B", AcctOutcome.lockTimeout),
          ("C", AcctOutcome.runOk)].map fun e => e.1)) []
        [("A", AcctOutcome.runOk), ("B", AcctOutcome.lockTimeout),
          ("C", AcctOutcome.runOk)]).status = "completed" ∧
    ∃ b, acctLookup (executeMultiAccountOperation (createOperation
        ([("A", AcctOutcome.runOk), ("B", AcctOutcome.lockTimeout),
          ("C", AcctOutcome.runOk)].map fun e => e.1)) []
        [("A", AcctOutcome.runOk), ("B", AcctOutcome.lockTimeout),
          ("C", AcctOutcome.runOk)]).accounts "B" = some b ∧
      b.status = "error" ∧ b.error = some "Lock timeout" := by
  have h := sequential_runner_lock_timeout_isolated
    [("A", AcctOutcome.runOk), ("B", AcctOutcome.lockTimeout),
      ("C", AcctOutcome.runOk)] [] (by decide)
  refine ⟨h.1, ?_⟩
  obtain ⟨b, hb, hterm, ht⟩ := h.2 ("B", AcctOutcome.lockTimeout) (by simp)
  exact ⟨b, hb, ht rfl⟩

end Orchestrator

end MatrixBackend
